import Mathlib

/-!
Verification of the CouchDB monitoring check (`couch/check.py`).

The Python source is shallowly embedded: JSON documents become an inductive
type, the dynamic operations the code performs on them (`x['k']`, `"k" in x`,
`.items()`) become functions returning `Except PyErr _`, gauge and
service-check emission becomes explicit lists in the results, and the HTTP
transport (an external collaborator, out of scope per the spec) is modelled
as an oracle `ServerEnv` mapping each endpoint the check contacts to one
`HttpOutcome`.
-/

set_option maxHeartbeats 1000000

deriving instance DecidableEq for Except

namespace Couch

/-- JSON values as returned by the CouchDB HTTP API.  Objects keep their
(insertion) order, as Python dictionaries do; `null` is Python `None`. -/
inductive Json where
  | null
  | bool (b : Bool)
  | num (n : Int)
  | str (s : String)
  | arr (elems : List Json)
  | obj (fields : List (String × Json))

mutual

/-- Boolean structural equality on `Json` (spelled out because the nested
lists defeat the automatic `DecidableEq` derivation). -/
def Json.beq : Json → Json → Bool
  | .null, .null => true
  | .bool a, .bool b => a = b
  | .num a, .num b => a = b
  | .str a, .str b => a = b
  | .arr as, .arr bs => Json.beqList as bs
  | .obj as, .obj bs => Json.beqFields as bs
  | _, _ => false

/-- Elementwise `Json.beq` on arrays. -/
def Json.beqList : List Json → List Json → Bool
  | [], [] => true
  | a :: as, b :: bs => Json.beq a b && Json.beqList as bs
  | _, _ => false

/-- Elementwise `Json.beq` on object fields. -/
def Json.beqFields : List (String × Json) → List (String × Json) → Bool
  | [], [] => true
  | (k, v) :: as, (k', v') :: bs =>
      k = k' && Json.beq v v' && Json.beqFields as bs
  | _, _ => false

end

/-- Decidable equality on `Json`, via `Json.beq` (the `have` establishes
that `beq` agrees with propositional equality, by the mutual functional
induction over `beq`). -/
instance instDecidableEqJson : DecidableEq Json := fun a b =>
  decidable_of_iff (Json.beq a b = true) (by
    have h : ∀ (x y : Json), Json.beq x y = true ↔ x = y := by
      refine Json.beq.induct
        (fun a b => Json.beq a b = true ↔ a = b)
        (fun fs gs => Json.beqFields fs gs = true ↔ fs = gs)
        (fun as bs => Json.beqList as bs = true ↔ as = bs)
        ?_ ?_ ?_ ?_ ?_ ?_ ?_ ?_ ?_ ?_ ?_ ?_ ?_
      · simp [Json.beq]
      · intro a b; simp [Json.beq]
      · intro a b; simp [Json.beq]
      · intro a b; simp [Json.beq]
      · intro as bs ih; simp [Json.beq, ih]
      · intro as bs ih; simp [Json.beq, ih]
      · intro a b h1 h2 h3 h4 h5 h6
        constructor
        · intro h
          exfalso
          cases a <;> cases b <;> simp_all [Json.beq]
        · rintro rfl
          exfalso
          cases a
          · exact h1 rfl rfl
          · rename_i bb; exact h2 bb bb rfl rfl
          · rename_i n; exact h3 n n rfl rfl
          · rename_i s; exact h4 s s rfl rfl
          · rename_i l; exact h5 l l rfl rfl
          · rename_i l; exact h6 l l rfl rfl
      · simp [Json.beqList]
      · intro a as b bs ih1 ih2; simp [Json.beqList, ih1, ih2]
      · intro as bs h1 h2
        constructor
        · intro h
          exfalso
          cases as <;> cases bs <;> simp_all [Json.beqList]
        · rintro rfl
          exfalso
          cases as
          · exact h1 rfl rfl
          · rename_i x xs; exact h2 x xs x xs rfl rfl
      · simp [Json.beqFields]
      · intro k v as k' v' bs ih1 ih2
        simp [Json.beqFields, ih1, ih2]
      · intro fs gs h1 h2
        constructor
        · intro h
          exfalso
          cases fs <;> cases gs <;> simp_all [Json.beqFields]
          rename_i p ps q qs
          exact h2 p.1 p.2 ps q.1 q.2 qs (by simp) rfl (by simp) rfl
        · rintro rfl
          exfalso
          cases fs
          · exact h1 rfl rfl
          · rename_i p ps
            exact h2 p.1 p.2 ps p.1 p.2 ps (by simp) (by simp)
    exact h a b)

instance : BEq Json := instBEqOfDecidableEq

/-- Python-level runtime errors the translated code can raise. -/
inductive PyErr where
  | typeError (msg : String)
  | keyError (key : String)
  | indexError
  | nameError (n : String)
  | attributeError (msg : String)
deriving DecidableEq

/-- Errors a check run can end with: fetcher-level failures, Python runtime
errors, and the explicit raises in the source. -/
inductive Err where
  | timeout
  | httpError (code : Nat)
  | transport (msg : String)
  | py (e : PyErr)
  | missingServer
  | missingName
  | noStats (url : String)
  | unknownVersion (v : String)
  | badPayload (msg : String)
deriving DecidableEq

/-- First-match association-list lookup, the semantics of Python dict keys
(dictionaries built from parsed JSON have unique keys, so first match is the
match). -/
def jlookup (fields : List (String × Json)) (k : String) : Option Json :=
  match fields with
  | [] => none
  | (k', v) :: rest => if k' = k then some v else jlookup rest k

/-- Does `needle` occur at the front of `hay`? -/
def listStartsWith (hay needle : List Char) : Bool :=
  match hay, needle with
  | _, [] => true
  | [], _ :: _ => false
  | c :: cs, d :: ds => c = d && listStartsWith cs ds

/-- Does `needle` occur anywhere inside `hay` (contiguously)? -/
def listHasInfix (hay needle : List Char) : Bool :=
  match hay with
  | [] => needle.isEmpty
  | _ :: rest => listStartsWith hay needle || listHasInfix rest needle

/-- Python `str.startswith(pre)`, via the character lists (the form that
computes by kernel reduction). -/
def pyStartswith (s pre : String) : Bool :=
  listStartsWith s.toList pre.toList

/-- Python `k in v` (membership test).  On dicts it is key membership, on
strings substring membership, on lists element membership; on numbers,
booleans and `None` it raises `TypeError: argument of type ... is not
iterable`. -/
def Json.hasMember (v : Json) (k : String) : Except PyErr Bool :=
  match v with
  | .obj fields => .ok (fields.any (fun p => p.1 = k))
  | .str s => .ok (listHasInfix s.toList k.toList)
  | .arr elems => .ok (elems.contains (.str k))
  | _ => .error (.typeError "argument is not iterable")

/-- Python `v[k]` for a string key `k`: dict lookup (raising `KeyError` when
the key is absent); strings and lists raise `TypeError` (their indices must
be integers); everything else is not subscriptable. -/
def Json.getItem (v : Json) (k : String) : Except PyErr Json :=
  match v with
  | .obj fields =>
      match jlookup fields k with
      | some x => .ok x
      | none => .error (.keyError k)
  | .str _ => .error (.typeError "string indices must be integers")
  | .arr _ => .error (.typeError "list indices must be integers")
  | _ => .error (.typeError "object is not subscriptable")

/-- Python `v[i]` for an integer index (only lists are indexed this way by
the code under study). -/
def Json.index (v : Json) (i : Nat) : Except PyErr Json :=
  match v with
  | .arr elems =>
      match elems.get? i with
      | some x => .ok x
      | none => .error .indexError
  | _ => .error (.typeError "object is not subscriptable")

/-- Python `str(v)`, as used by `"...".format(...)` on percentile labels.
Only scalars occur there in practice; aggregates get a placeholder. -/
def Json.pyStr : Json → String
  | .null => "None"
  | .bool true => "True"
  | .bool false => "False"
  | .num n => toString n
  | .str s => s
  | .arr _ => "<list>"
  | .obj _ => "<dict>"

/-- A JSON array holding a list of strings, decoded (the shape `/_all_dbs`
returns).  Anything else is rejected. -/
def Json.asStringList : Json → Option (List String)
  | .arr elems =>
      elems.mapM (fun j => match j with | .str s => some s | _ => none)
  | _ => none

/-- One emitted gauge: `self.gauge(metric_name, value, tags, device_name)`. -/
structure Gauge where
  name : String
  value : Json
  tags : List String
  device : Option String
deriving DecidableEq

/-- Service-check status: `AgentCheck.OK` / `AgentCheck.CRITICAL`. -/
inductive SCStatus where
  | ok
  | critical
deriving DecidableEq

/-- One emitted `couchdb.can_connect` service check. -/
structure ServiceCheck where
  status : SCStatus
  tags : List String
  message : String
deriving DecidableEq

/-- Outcome of one HTTP GET, decided by the environment (the transport layer
is an external collaborator): a parsed JSON body, a timeout, a non-2xx
status (which `raise_for_status` turns into an `HTTPError` carrying the
status code), or another transport failure. -/
inductive HttpOutcome where
  | success (body : Json)
  | timeout
  | httpError (code : Nat)
  | transportError (msg : String)
deriving DecidableEq

/-- One instance configuration (the `instance` dict fields the check reads). -/
structure Instance where
  server : Option String
  user : Option String
  password : Option String
  timeoutCfg : Option Nat
  name : Option String
  db_whitelist : Option (List String)
  db_blacklist : List String
deriving DecidableEq

/-- An instance with every optional field absent. -/
def Instance.base : Instance :=
  ⟨none, none, none, none, none, none, []⟩

/-- The server as the check sees it: one `HttpOutcome` per endpoint it can
contact.  Per-database endpoints are keyed by the database name (the URL is
a deterministic function of it). -/
structure ServerEnv where
  root : HttpOutcome
  stats : HttpOutcome
  nodeStats : String → HttpOutcome
  allDbs : HttpOutcome
  db : String → HttpOutcome

/-- Modelled from the spec: `urlparse.urljoin` is Python standard library,
not part of this repository; URLs only feed service-check messages and
logging here (endpoint dispatch is by `ServerEnv` field), so joining is
modelled as plain path concatenation. -/
def urljoin (base rel : String) : String :=
  base ++ "/" ++ rel

/-- `CouchDb.get`: hit a URL, return the parsed JSON.  On success it emits
an OK service check only when `run_check` is set; every failure branch
(timeout, HTTP error, other transport error) emits a CRITICAL service check
unconditionally and re-raises. -/
def CouchDb.get (url : String) (outcome : HttpOutcome)
    (service_check_tags : List String) (run_check : Bool) :
    Except Err Json × List ServiceCheck :=
  match outcome with
  | .success body =>
      (.ok body,
        if run_check then
          [⟨.ok, service_check_tags, "Connection to " ++ url ++ " was successful"⟩]
        else [])
  | .timeout =>
      (.error .timeout,
        [⟨.critical, service_check_tags, "Request timeout: " ++ url⟩])
  | .httpError code =>
      (.error (.httpError code),
        [⟨.critical, service_check_tags, toString code ++ " Error for url: " ++ url⟩])
  | .transportError msg =>
      (.error (.transport msg),
        [⟨.critical, service_check_tags, msg⟩])

/-- The characters `urllib.quote` never escapes regardless of `safe`:
ASCII letters, digits, and `_.-`. -/
def alwaysSafeChar (c : Char) : Bool :=
  c.isAlpha || c.isDigit || c = '_' || c = '.' || c = '-'

/-- Uppercase hexadecimal digit. -/
def hexDigitChar (n : Nat) : Char :=
  ("0123456789ABCDEF").toList.getD n 'F'

/-- `urllib.quote` on one (ASCII) character: kept verbatim when always-safe
or listed in `safe`, otherwise replaced by `%XX`. -/
def quoteChar (safe : List Char) (c : Char) : List Char :=
  if alwaysSafeChar c || safe.contains c then [c]
  else ['%', hexDigitChar (c.toNat / 16 % 16), hexDigitChar (c.toNat % 16)]

/-- `urllib.quote(s, safe)` over ASCII strings. -/
def quote (s : String) (safe : String) : String :=
  String.mk (List.flatten (s.toList.map (quoteChar safe.toList)))

/-- The path component v1 embeds for a database: `quote(dbName, safe='')`. -/
def CouchDB1.dbPathComponent (dbName : String) : String :=
  quote dbName ""

/-- The path component v2 embeds for a database: the raw name handed to
`urljoin` unchanged. -/
def CouchDB2.dbPathComponent (db : String) : String :=
  db

/-- Python dict assignment `d[k] = v`: overwrite in place when the key
exists, append otherwise. -/
def dictSet {α : Type} (d : List (String × α)) (k : String) (v : α) :
    List (String × α) :=
  if d.any (fun p => p.1 = k) then
    d.map (fun p => if p.1 = k then (k, v) else p)
  else d ++ [(k, v)]

/-- Python `del d[k]`. -/
def dictDel {α : Type} (d : List (String × α)) (k : String) :
    List (String × α) :=
  d.filter (fun p => decide (p.1 ≠ k))

/-- `self.db_blacklist`: a mapping from server URL to the list of database
names blacklisted for that server. -/
abbrev Blacklist := List (String × List String)

/-- Look a server up in the blacklist map (`[]` when absent). -/
def Blacklist.getAt (bl : Blacklist) (server : String) : List String :=
  match bl with
  | [] => []
  | (s, dbs) :: rest => if s = server then dbs else Blacklist.getAt rest server

/-- `self.db_blacklist.setdefault(server, [])`. -/
def Blacklist.setdefaultAt (bl : Blacklist) (server : String) : Blacklist :=
  if bl.any (fun p => p.1 = server) then bl else bl ++ [(server, [])]

/-- Overwrite the entry for `server` (used to write a mutated per-server
list back into the map). -/
def Blacklist.setAt (bl : Blacklist) (server : String) (dbs : List String) :
    Blacklist :=
  bl.map (fun p => if p.1 = server then (server, dbs) else p)

/-- `self.db_blacklist[server].extend(instance.get('db_blacklist', []))`. -/
def Blacklist.extendAt (bl : Blacklist) (server : String)
    (more : List String) : Blacklist :=
  Blacklist.setAt bl server (Blacklist.getAt bl server ++ more)

/-- `CouchDB1.MAX_DB`. -/
def CouchDB1.MAX_DB : Nat := 50

/-- The warning the v1 loop logs when a database turns out unreadable. -/
def CouchDB1.unreadableWarning (dbName : String) : String :=
  "Database " ++ dbName ++ " is not readable by the configured user. It will be added to the blacklist. Please restart the agent to clear."

/-- The inner loop of `CouchDB1._create_metric` over one category of the
global stats document: for each `metric -> val` pair, read `val['current']`
and emit `couchdb.<category>.<metric>` when it is not `None`.  Gauges
emitted before a raised error are kept (they were already submitted). -/
def CouchDB1.flattenCategory (key : String) (tags : List String) :
    List (String × Json) → List Gauge × Option Err
  | [] => ([], none)
  | (metric, val) :: rest =>
    match val.getItem "current" with
    | .error e => ([], some (.py e))
    | .ok cur =>
      let here : List Gauge :=
        if cur = .null then []
        else [⟨"couchdb." ++ key ++ "." ++ metric, cur, tags, none⟩]
      let (gs, err) := CouchDB1.flattenCategory key tags rest
      (here ++ gs, err)

/-- The outer loop of `CouchDB1._create_metric` over the global stats
document: each category value must itself be a dict (else `.items()` raises
`AttributeError`). -/
def CouchDB1.flattenStats (tags : List String) :
    List (String × Json) → List Gauge × Option Err
  | [] => ([], none)
  | (key, catv) :: rest =>
    match catv with
    | .obj metrics =>
      let (gs, err) := CouchDB1.flattenCategory key tags metrics
      match err with
      | some e => (gs, some e)
      | none =>
        let (gs2, err2) := CouchDB1.flattenStats tags rest
        (gs ++ gs2, err2)
    | _ => ([], some (.py (.attributeError "object has no attribute items")))

/-- The per-database half of `CouchDB1._create_metric`: inside one database
document, emit `couchdb.by_db.doc_count` / `couchdb.by_db.disk_size` for
non-`None` values, with the `db:<name>` tag appended and the database as
device name. -/
def CouchDB1.flattenDb (tags : List String) (db_name : String) :
    List (String × Json) → List Gauge
  | [] => []
  | (n, val) :: rest =>
    let here : List Gauge :=
      if (n = "doc_count" ∨ n = "disk_size") ∧ val ≠ .null then
        [⟨"couchdb.by_db." ++ n, val, tags ++ ["db:" ++ db_name], some db_name⟩]
      else []
    here ++ CouchDB1.flattenDb tags db_name rest

/-- Loop of `CouchDB1._create_metric` over `data['databases']`.  A database
recorded as `None` makes `.items()` raise `AttributeError`; a non-dict
value likewise. -/
def CouchDB1.flattenDatabases (tags : List String) :
    List (String × Option Json) → List Gauge × Option Err
  | [] => ([], none)
  | (db_name, dstats) :: rest =>
    match dstats with
    | none => ([], some (.py (.attributeError "NoneType has no attribute items")))
    | some (.obj fields) =>
      let gs := CouchDB1.flattenDb tags db_name fields
      let (gs2, err) := CouchDB1.flattenDatabases tags rest
      (gs ++ gs2, err)
    | some _ => ([], some (.py (.attributeError "object has no attribute items")))

/-- The dictionary `get_data` returns: `{'stats': ..., 'databases': {...}}`.
A database can be mapped to Python `None`, hence `Option Json` values. -/
structure CouchData where
  stats : Json
  databases : List (String × Option Json)
deriving DecidableEq

/-- `CouchDB1._create_metric(data, tags)`. -/
def CouchDB1.create_metric (data : CouchData) (tags : List String) :
    List Gauge × Option Err :=
  match data.stats with
  | .obj categories =>
    let (gs, err) := CouchDB1.flattenStats tags categories
    match err with
    | some e => (gs, some e)
    | none =>
      let (gs2, err2) := CouchDB1.flattenDatabases tags data.databases
      (gs ++ gs2, err2)
  | _ => ([], some (.py (.attributeError "object has no attribute items")))

/-- Running state of the per-database fetch loop in `CouchDB1.get_data`:
the `couchdb['databases']` dict built so far, this server's (mutated)
blacklist, the Python local variable `db_stats` (`none` while unbound), and
the emission/IO trace. -/
structure LoopState where
  results : List (String × Option Json)
  bl : List String
  reg : Option Json
  warnings : List String
  serviceChecks : List ServiceCheck
  fetched : List String
deriving DecidableEq

/-- The `for dbName in databases:` loop of `CouchDB1.get_data`.  Only
`requests.exceptions.HTTPError` is caught: a 401/403 blacklists the
database, warns, deletes its (just-written) `None` entry and continues;
any other HTTP status falls through to the `if db_stats is not None:`
test, which reads the *previous* iteration's local (an unbound-local
`NameError` when no fetch has succeeded yet).  Timeouts and other
transport errors propagate. -/
def CouchDB1.dbLoop (env : ServerEnv) (server : String) (tags : List String)
    (st : LoopState) : List String → LoopState × Option Err
  | [] => (st, none)
  | dbName :: rest =>
    let url := urljoin server (CouchDB1.dbPathComponent dbName)
    match CouchDb.get url (env.db dbName) tags false with
    | (.ok dstats, scs) =>
      let results :=
        if dstats ≠ .null then dictSet st.results dbName (some dstats)
        else st.results
      CouchDB1.dbLoop env server tags
        { st with
          results := results
          reg := some dstats
          serviceChecks := st.serviceChecks ++ scs
          fetched := st.fetched ++ [dbName] } rest
    | (.error (.httpError code), scs) =>
      let st1 :=
        { st with
          serviceChecks := st.serviceChecks ++ scs
          fetched := st.fetched ++ [dbName]
          results := dictSet st.results dbName none }
      if code = 403 ∨ code = 401 then
        CouchDB1.dbLoop env server tags
          { st1 with
            bl := st1.bl ++ [dbName]
            warnings := st1.warnings ++ [CouchDB1.unreadableWarning dbName]
            results := dictDel st1.results dbName } rest
      else
        match st1.reg with
        | none => (st1, some (.py (.nameError "db_stats")))
        | some v =>
          let results2 :=
            if v ≠ .null then dictSet st1.results dbName (some v)
            else st1.results
          CouchDB1.dbLoop env server tags { st1 with results := results2 } rest
    | (.error e, scs) =>
      ({ st with
          serviceChecks := st.serviceChecks ++ scs
          fetched := st.fetched ++ [dbName] }, some e)

/-- Everything `CouchDB1.get_data` produces: the returned dictionary (or
the raised error), the updated blacklist map, and the trace. -/
structure GetDataOut where
  result : Except Err CouchData
  blacklist : Blacklist
  warnings : List String
  serviceChecks : List ServiceCheck
  fetchedDbs : List String
  polled : List String
deriving DecidableEq

/-- Lines 140-142 of the source: `set(all_dbs) - set(blacklist)`, then
`.intersection(whitelist)` — but only when the configured whitelist is
truthy (a Python empty list is falsy and skips the intersection).  Python
`set` iteration order is unspecified; it is modelled deterministically by
first-occurrence order. -/
def CouchDB1.selectDbs (all_dbs blServer : List String)
    (wl : Option (List String)) : List String :=
  match wl with
  | some w =>
    if w = [] then all_dbs.dedup.filter (fun d => decide (d ∉ blServer))
    else (all_dbs.dedup.filter (fun d => decide (d ∉ blServer))).filter
      (fun d => decide (d ∈ w))
  | none => all_dbs.dedup.filter (fun d => decide (d ∉ blServer))

/-- `CouchDB1.get_data(server, instance, tags)`.  Python `set` iteration
order is unspecified; it is modelled deterministically by first-occurrence
order of `/_all_dbs/`, so `set(...) - set(...)`, `.intersection` and the
`list(databases)[:MAX_DB]` cap become order-preserving filters and `take`. -/
def CouchDB1.get_data (env : ServerEnv) (server : String) (inst : Instance)
    (tags : List String) (bl0 : Blacklist) : GetDataOut :=
  let statsUrl := urljoin server "_stats/"
  match CouchDb.get statsUrl env.stats tags true with
  | (.error e, scs) => ⟨.error e, bl0, [], scs, [], []⟩
  | (.ok overall, scs1) =>
    if overall = .null then
      ⟨.error (.noStats statsUrl), bl0, [], scs1, [], []⟩
    else
      let bl1 := Blacklist.extendAt (Blacklist.setdefaultAt bl0 server) server
        inst.db_blacklist
      match CouchDb.get (urljoin server "_all_dbs/") env.allDbs tags false with
      | (.error e, scs2) => ⟨.error e, bl1, [], scs1 ++ scs2, [], []⟩
      | (.ok dbsJson, scs2) =>
        match dbsJson.asStringList with
        | none => ⟨.error (.badPayload "_all_dbs"), bl1, [], scs1 ++ scs2, [], []⟩
        | some all_dbs =>
          let dbs2 := CouchDB1.selectDbs all_dbs
            (Blacklist.getAt bl1 server) inst.db_whitelist
          let (databases, warnCap) :=
            if CouchDB1.MAX_DB < dbs2.length then
              (dbs2.take CouchDB1.MAX_DB,
               ["Too many databases, only the first 50 will be checked."])
            else (dbs2, ([] : List String))
          let st0 : LoopState :=
            ⟨[], Blacklist.getAt bl1 server, none, warnCap, [], []⟩
          let (stF, err) := CouchDB1.dbLoop env server tags st0 databases
          let blF := Blacklist.setAt bl1 server stF.bl
          match err with
          | some e =>
            ⟨.error e, blF, stF.warnings, scs1 ++ scs2 ++ stF.serviceChecks,
             stF.fetched, databases⟩
          | none =>
            ⟨.ok ⟨overall, stF.results⟩, blF, stF.warnings,
             scs1 ++ scs2 ++ stF.serviceChecks, stF.fetched, databases⟩

/-- Everything a `check(instance)` run produces. -/
structure CheckOut where
  result : Except Err Unit
  gauges : List Gauge
  warnings : List String
  serviceChecks : List ServiceCheck
  fetchedDbs : List String
  blacklist : Blacklist
  polled : List String
deriving DecidableEq

/-- `CouchDB1.check(instance)`: require a server, tag with
`instance:<server>`, fetch the data and flatten it into gauges. -/
def CouchDB1.check (env : ServerEnv) (inst : Instance) (bl0 : Blacklist) :
    CheckOut :=
  match inst.server with
  | none => ⟨.error .missingServer, [], [], [], [], bl0, []⟩
  | some server =>
    let tags := ["instance:" ++ server]
    let gd := CouchDB1.get_data env server inst tags bl0
    match gd.result with
    | .error e =>
      ⟨.error e, [], gd.warnings, gd.serviceChecks, gd.fetchedDbs,
       gd.blacklist, gd.polled⟩
    | .ok data =>
      let (gs, err) := CouchDB1.create_metric data tags
      ⟨match err with | some e => .error e | none => .ok (), gs,
       gd.warnings, gd.serviceChecks, gd.fetchedDbs, gd.blacklist, gd.polled⟩

/-- The `for pair in value:` loop of the percentile branch in
`CouchDB2._build_metrics`: one gauge
`<prefix>.<key>.percentile.<pair[0]>` with value `pair[1]` per pair. -/
def CouchDB2.buildPercentilePairs (pre : String) (tags : List String)
    (key : String) : List Json → List Gauge × Option Err
  | [] => ([], none)
  | pair :: rest =>
    match pair.index 0 with
    | .error e => ([], some (.py e))
    | .ok p0 =>
      match pair.index 1 with
      | .error e => ([], some (.py e))
      | .ok p1 =>
        let (gs, err) := CouchDB2.buildPercentilePairs pre tags key rest
        (⟨pre ++ "." ++ key ++ ".percentile." ++ p0.pyStr, p1, tags, none⟩ :: gs,
         err)

/-- The percentile entry's value must be iterable; in the documents this
code targets it is a JSON array of pairs, so the other iterable shapes are
collapsed into the non-iterable `TypeError` here. -/
def CouchDB2.buildPercentile (pre : String) (tags : List String)
    (key : String) : Json → List Gauge × Option Err
  | .arr pairs => CouchDB2.buildPercentilePairs pre tags key pairs
  | _ => ([], some (.py (.typeError "object is not iterable")))

/-- The `for metric, value in value["value"].items():` loop for a
histogram-typed node: skip the `histogram` entry, expand `percentile`
pairwise, emit every other entry as `<prefix>.<key>.<metric>`. -/
def CouchDB2.buildHistogram (pre : String) (tags : List String)
    (key : String) : List (String × Json) → List Gauge × Option Err
  | [] => ([], none)
  | (metric, v) :: rest =>
    if metric = "histogram" then CouchDB2.buildHistogram pre tags key rest
    else if metric = "percentile" then
      match CouchDB2.buildPercentile pre tags key v with
      | (gs, some e) => (gs, some e)
      | (gs, none) =>
        let (gs2, err) := CouchDB2.buildHistogram pre tags key rest
        (gs ++ gs2, err)
    else
      let (gs2, err) := CouchDB2.buildHistogram pre tags key rest
      (⟨pre ++ "." ++ key ++ "." ++ metric, v, tags, none⟩ :: gs2, err)

/-- The body of `CouchDB2._build_metrics` for a node that passed the
`"type" in value` test: read `value["type"]` (a `TypeError` when the
membership succeeded on a string or list), then either expand the
histogram value map or emit a single `<prefix>.<key>` gauge from
`value["value"]`. -/
def CouchDB2.typedEntry (pre : String) (tags : List String) (key : String)
    (value : Json) : List Gauge × Option Err :=
  match value.getItem "type" with
  | .error e => ([], some (.py e))
  | .ok t =>
    if t = .str "histogram" then
      match value.getItem "value" with
      | .error e => ([], some (.py e))
      | .ok (.obj m) => CouchDB2.buildHistogram pre tags key m
      | .ok _ => ([], some (.py (.attributeError "object has no attribute items")))
    else
      match value.getItem "value" with
      | .error e => ([], some (.py e))
      | .ok v => ([⟨pre ++ "." ++ key, v, tags, none⟩], none)

mutual

/-- One `key, value` step of `CouchDB2._build_metrics`: `"type" in value`
dispatches between typed leaves, recursion into nested dicts (with the key
appended to the name root), and silently skipping any other value. -/
def CouchDB2.buildValue (pre : String) (tags : List String) (key : String)
    (value : Json) : List Gauge × Option Err :=
  match value.hasMember "type" with
  | .error e => ([], some (.py e))
  | .ok true => CouchDB2.typedEntry pre tags key value
  | .ok false =>
    match value with
    | .obj fields => CouchDB2.buildEntries (pre ++ "." ++ key) tags fields
    | _ => ([], none)

/-- The `for key, value in data.items():` loop of
`CouchDB2._build_metrics`.  Gauges emitted before a raised error are kept
(they were already submitted). -/
def CouchDB2.buildEntries (pre : String) (tags : List String) :
    List (String × Json) → List Gauge × Option Err
  | [] => ([], none)
  | (key, value) :: rest =>
    match CouchDB2.buildValue pre tags key value with
    | (gs, some e) => (gs, some e)
    | (gs, none) =>
      let (gs2, e2) := CouchDB2.buildEntries pre tags rest
      (gs ++ gs2, e2)

end

/-- `CouchDB2._build_metrics(data, tags)` with the initial `couchdb`
name root; `data.items()` on a non-dict raises. -/
def CouchDB2.build_metrics (data : Json) (tags : List String) :
    List Gauge × Option Err :=
  match data with
  | .obj fields => CouchDB2.buildEntries "couchdb" tags fields
  | _ => ([], some (.py (.attributeError "object has no attribute items")))

/-- The second loop of `CouchDB2._build_db_metrics`: `data[key]` for the
three fixed top-level fields. -/
def CouchDB2.topFieldGauges (data : Json) (tags : List String) :
    List String → List Gauge × Option Err
  | [] => ([], none)
  | k :: rest =>
    match data.getItem k with
    | .error e => ([], some (.py e))
    | .ok v =>
      let (gs, err) := CouchDB2.topFieldGauges data tags rest
      (⟨"couchdb.by_db." ++ k, v, tags, none⟩ :: gs, err)

/-- `CouchDB2._build_db_metrics(data, tags)`: one
`couchdb.by_db.<key>_size` gauge per entry of `data['sizes']`, then
`purge_seq`, `doc_del_count` and `doc_count` from the top level. -/
def CouchDB2.build_db_metrics (data : Json) (tags : List String) :
    List Gauge × Option Err :=
  match data.getItem "sizes" with
  | .error e => ([], some (.py e))
  | .ok (.obj sfields) =>
    let gs := sfields.map
      (fun p => (⟨"couchdb.by_db." ++ p.1 ++ "_size", p.2, tags, none⟩ : Gauge))
    let (gs2, err) := CouchDB2.topFieldGauges data tags
      ["purge_seq", "doc_del_count", "doc_count"]
    (gs ++ gs2, err)
  | .ok _ => ([], some (.py (.attributeError "object has no attribute items")))

/-- Result of the per-database loop in `CouchDB2.check`; the gauges are
grouped by the database they were emitted for. -/
structure DbLoopOut2 where
  perDb : List (String × List Gauge)
  serviceChecks : List ServiceCheck
  fetched : List String
  failure : Option Err
deriving DecidableEq

/-- The `for db in self.agent_check.get(urljoin(server, "/_all_dbs")...)`
loop of `CouchDB2.check`: fetch (non-primary) and flatten each database
passing the whitelist test; any error here propagates. -/
def CouchDB2.dbLoop (env : ServerEnv) (server : String) (name : String)
    (wl : Option (List String)) : List String → DbLoopOut2
  | [] => ⟨[], [], [], none⟩
  | db :: rest =>
    let fetchIt : Bool :=
      match wl with
      | none => true
      | some w => w.contains db
    if fetchIt then
      let tags2 := ["instance:" ++ name, "db:" ++ db]
      let url := urljoin server (CouchDB2.dbPathComponent db)
      match CouchDb.get url (env.db db) tags2 false with
      | (.error e, scs) => ⟨[], scs, [db], some e⟩
      | (.ok data, scs) =>
        match CouchDB2.build_db_metrics data tags2 with
        | (gs, some e) => ⟨[(db, gs)], scs, [db], some e⟩
        | (gs, none) =>
          let o := CouchDB2.dbLoop env server name wl rest
          ⟨(db, gs) :: o.perDb, scs ++ o.serviceChecks, db :: o.fetched,
           o.failure⟩
    else CouchDB2.dbLoop env server name wl rest

/-- Everything a `CouchDB2.check(instance)` run produces.  Node-level and
per-database gauges are kept apart (they come from the two distinct
emission sites in the source); `CouchDB2.gauges` is the full emission. -/
structure CheckOut2 where
  result : Except Err Unit
  nodeGauges : List Gauge
  perDbGauges : List (String × List Gauge)
  serviceChecks : List ServiceCheck
  fetchedDbs : List String
deriving DecidableEq

/-- All gauges a v2 run emitted, in emission order. -/
def CheckOut2.gauges (o : CheckOut2) : List Gauge :=
  o.nodeGauges ++ (o.perDbGauges.map Prod.snd).flatten

/-- `CouchDB2.check(instance)`: require `name`, fetch
`/_node/<name>/_stats` (primary call, bail out on `None`), flatten it,
then walk `/_all_dbs` against the whitelist. -/
def CouchDB2.check (env : ServerEnv) (inst : Instance) : CheckOut2 :=
  match inst.server with
  | none => ⟨.error .missingServer, [], [], [], []⟩
  | some server =>
    match inst.name with
    | none => ⟨.error .missingName, [], [], [], []⟩
    | some name =>
      let tags := ["instance:" ++ name]
      let nodeUrl := urljoin server ("_node/" ++ name ++ "/_stats")
      match CouchDb.get nodeUrl (env.nodeStats name) tags true with
      | (.error e, scs) => ⟨.error e, [], [], scs, []⟩
      | (.ok stats, scs1) =>
        if stats = .null then ⟨.error (.noStats nodeUrl), [], [], scs1, []⟩
        else
          match CouchDB2.build_metrics stats tags with
          | (gs1, some e) => ⟨.error e, gs1, [], scs1, []⟩
          | (gs1, none) =>
            match CouchDb.get (urljoin server "_all_dbs") env.allDbs tags false with
            | (.error e, scs2) => ⟨.error e, gs1, [], scs1 ++ scs2, []⟩
            | (.ok dbsJson, scs2) =>
              match dbsJson.asStringList with
              | none => ⟨.error (.badPayload "_all_dbs"), gs1, [], scs1 ++ scs2, []⟩
              | some all_dbs =>
                let o := CouchDB2.dbLoop env server name inst.db_whitelist all_dbs
                ⟨match o.failure with | some e => .error e | none => .ok (),
                 gs1, o.perDb, scs1 ++ scs2 ++ o.serviceChecks, o.fetched⟩

/-- `self.checker`: the lazily created extractor.  The v1 extractor owns
its (mutable) blacklist map, carried here as its state. -/
inductive Checker where
  | v1 (blacklist : Blacklist)
  | v2
deriving DecidableEq

/-- Everything one `CouchDb.check(instance)` call produces: the checker
after the call, whether the root version probe was issued, and the run's
outcome and trace. -/
structure DispatchOut where
  checker : Option Checker
  probedRoot : Bool
  result : Except Err Unit
  gauges : List Gauge
  warnings : List String
  serviceChecks : List ServiceCheck
  fetchedDbs : List String
deriving DecidableEq

/-- `self.checker.check(instance)` on an already-resolved checker. -/
def CouchDb.runChecker (env : ServerEnv) (inst : Instance) (c : Checker)
    (probed : Bool) (scs0 : List ServiceCheck) : DispatchOut :=
  match c with
  | .v1 bl =>
    let o := CouchDB1.check env inst bl
    ⟨some (.v1 o.blacklist), probed, o.result, o.gauges, o.warnings,
     scs0 ++ o.serviceChecks, o.fetchedDbs⟩
  | .v2 =>
    let o := CouchDB2.check env inst
    ⟨some .v2, probed, o.result, o.gauges, [],
     scs0 ++ o.serviceChecks, o.fetchedDbs⟩

/-- `CouchDb.check(instance)`: on the first call (checker `none`) probe the
server root (a primary call), read `version` and dispatch on its prefix;
afterwards reuse the resolved checker with no probe. -/
def CouchDb.check (env : ServerEnv) (inst : Instance)
    (checker : Option Checker) : DispatchOut :=
  match inst.server with
  | none => ⟨checker, false, .error .missingServer, [], [], [], []⟩
  | some server =>
    match checker with
    | some c => CouchDb.runChecker env inst c false []
    | none =>
      let nm := inst.name.getD server
      match CouchDb.get server env.root ["instance:" ++ nm] true with
      | (.error e, scs) => ⟨none, true, .error e, [], [], scs, []⟩
      | (.ok body, scs) =>
        match body.getItem "version" with
        | .error e => ⟨none, true, .error (.py e), [], [], scs, []⟩
        | .ok (.str version) =>
          if pyStartswith version "1." then
            CouchDb.runChecker env inst (.v1 []) true scs
          else if pyStartswith version "2." then
            CouchDb.runChecker env inst .v2 true scs
          else ⟨none, true, .error (.unknownVersion version), [], [], scs, []⟩
        | .ok _ =>
          ⟨none, true,
           .error (.py (.attributeError "object has no attribute startswith")),
           [], [], scs, []⟩

/-- A sequence of `check` calls on the same `CouchDb` object, threading the
cached checker through (the scheduler's repeated invocations). -/
def CouchDb.checkMany (checker : Option Checker) :
    List (ServerEnv × Instance) → List DispatchOut × Option Checker
  | [] => ([], checker)
  | (env, inst) :: rest =>
    let o := CouchDb.check env inst checker
    let (outs, cF) := CouchDb.checkMany o.checker rest
    (o :: outs, cF)

/-- The `current` field of a v1 stats leaf, when the leaf is a map that has
one. -/
def currentOf (v : Json) : Option Json :=
  match v with
  | .obj fields => jlookup fields "current"
  | _ => none

/-- Shape check for a v1 global stats document: a map of categories, each a
map of metrics, each leaf a map carrying a `current` key (the shape the
spec's data model section describes). -/
def v1WellFormedStats : Json → Bool
  | .obj cats => cats.all (fun p =>
      match p.2 with
      | .obj ms => ms.all (fun q =>
          match q.2 with
          | .obj fields => fields.any (fun r => r.1 = "current")
          | _ => false)
      | _ => false)
  | _ => false

/-- Written from the spec's words (§4.3 step 7): flatten global stats by
emitting, for every `category.metric` pair whose `current` is non-null, one
gauge `couchdb.<category>.<metric>` carrying the current value; leaves with
`current: null` are omitted. -/
def specV1Flatten (cats : List (String × Json)) (tags : List String) :
    List Gauge :=
  cats.flatMap (fun c =>
    (match c.2 with
     | Json.obj ms => ms
     | _ => ([] : List (String × Json))).flatMap (fun m =>
      match currentOf m.2 with
      | some cur =>
        if cur = Json.null then []
        else [⟨"couchdb." ++ c.1 ++ "." ++ m.1, cur, tags, none⟩]
      | none => []))

/-- Written from the spec's words (§4.3 step 4): the effective v1 database
set, `all_dbs` minus the server's blacklist, intersected with the whitelist
when one is configured; set iteration is modelled as first-occurrence
order. -/
def specV1EffectiveDbs (all_dbs : List String) (bl : List String)
    (wl : Option (List String)) : List String :=
  match wl with
  | some w =>
    (all_dbs.dedup.filter (fun d => decide (d ∉ bl))).filter
      (fun d => decide (d ∈ w))
  | none => all_dbs.dedup.filter (fun d => decide (d ∉ bl))

/-- A percentile table as the JSON array of `[label, value]` pairs. -/
def pairsJson (ps : List (Int × Int)) : Json :=
  .arr (ps.map (fun p => .arr [.num p.1, .num p.2]))

/-- Sample v1 database stats document. -/
def docA : Json := .obj [("doc_count", .num 1), ("disk_size", .num 10)]

/-- Second sample v1 database stats document. -/
def docC : Json := .obj [("doc_count", .num 3), ("disk_size", .num 30)]

/-- Sample v2 per-database document (`sizes` map plus the three top-level
counters). -/
def docDb2 : Json := .obj
  [("sizes", .obj [("active", .num 100), ("file", .num 200)]),
   ("purge_seq", .num 0), ("doc_del_count", .num 2), ("doc_count", .num 5)]

/-- Environment in which database `b` answers 500 while `a` and `c`
succeed. -/
def envStale : ServerEnv :=
  ⟨.success .null, .success (.obj []), fun _ => .success .null,
   .success (.arr [.str "a", .str "b", .str "c"]),
   fun d =>
     if d = "a" then .success docA
     else if d = "b" then .httpError 500
     else .success docC⟩

/-- Environment of a v1 server on which database `b` answers 401. -/
def env401 : ServerEnv :=
  ⟨.success (.obj [("version", .str "1.6.0")]), .success (.obj []),
   fun _ => .success .null,
   .success (.arr [.str "a", .str "b"]),
   fun d => if d = "b" then .httpError 401 else .success docA⟩

/-- Environment with three discovered databases, all readable (each
answering the v2-shaped document, usable by both loops). -/
def envSel : ServerEnv :=
  ⟨.success .null, .success (.obj []), fun _ => .success .null,
   .success (.arr [.str "_users", .str "_replicator", .str "kennel"]),
   fun _ => .success docDb2⟩

/-- A family of environments whose root probe reports the given version;
both extractors can run against it. -/
def envRoot (v : String) : ServerEnv :=
  ⟨.success (.obj [("version", .str v)]), .success (.obj []),
   fun _ => .success (.obj []),
   .success (.arr []), fun _ => .success docA⟩

/-- Environment of a v2 server: one typed node-stats entry, one database. -/
def env2 : ServerEnv :=
  ⟨.success (.obj [("version", .str "2.0.0")]),
   .success .null,
   fun _ => .success
     (.obj [("open_files", .obj [("type", .str "counter"), ("value", .num 7)])]),
   .success (.arr [.str "kennel"]),
   fun _ => .success docDb2⟩

theorem getD_ne {l : List Char} {d c : Char} (hl : ∀ x ∈ l, x ≠ c)
    (hd : d ≠ c) (n : Nat) : l.getD n d ≠ c := by
  show (l.get? n).getD d ≠ c
  cases h : l.get? n with
  | none => exact hd
  | some x => exact hl x (List.get?_mem h)

theorem hexDigitChar_ne_slash (n : Nat) : hexDigitChar n ≠ '/' :=
  getD_ne (by decide) (by decide) n

theorem quoteChar_no_slash (c : Char) : '/' ∉ quoteChar [] c := by
  unfold quoteChar
  split
  · rename_i hcond
    intro hmem
    simp only [List.mem_singleton] at hmem
    subst hmem
    simp [alwaysSafeChar] at hcond
  · intro hmem
    simp only [List.mem_cons, List.not_mem_nil, or_false] at hmem
    rcases hmem with h | h | h
    · exact absurd h (by decide)
    · exact hexDigitChar_ne_slash _ h.symm
    · exact hexDigitChar_ne_slash _ h.symm

theorem quote_no_slash (s : String) : '/' ∉ (quote s "").toList := by
  intro hmem
  have h : '/' ∈ List.flatten ((s.toList.map (quoteChar []))) := hmem
  rw [List.mem_flatten] at h
  obtain ⟨l, hl, hc⟩ := h
  rw [List.mem_map] at hl
  obtain ⟨c, _, rfl⟩ := hl
  exact quoteChar_no_slash c hc

/-- Claim C6, counterexample: the v2 extractor embeds the raw database name
into the path — for the name `a/b` the embedded component is not the
percent-encoding `quote("a/b", safe="")` and still contains `/`. -/
theorem db_path_escaping_counterexample :
    CouchDB2.dbPathComponent "a/b" ≠ quote "a/b" "" ∧
    '/' ∈ (CouchDB2.dbPathComponent "a/b").toList := by
  decide

/-- Claim C6 (amended): only the v1 extractor percent-encodes database
names with no safe characters (so `/` never survives into the path
component); the v2 extractor embeds the raw name unescaped. -/
theorem db_path_escaping (db : String) :
    CouchDB1.dbPathComponent db = quote db "" ∧
    '/' ∉ (CouchDB1.dbPathComponent db).toList ∧
    CouchDB2.dbPathComponent db = db :=
  ⟨rfl, quote_no_slash db, rfl⟩

/-- Claim C1, counterexample: a non-primary call (`run_check = false`) that
fails with an HTTP error emits a CRITICAL service check, contradicting the
claim that non-primary calls emit no service check regardless of outcome. -/
theorem get_nonprimary_emits_on_failure :
    (CouchDb.get "http://localhost:5984/_all_dbs/" (.httpError 500)
      ["instance:http://localhost:5984"] false).2 ≠ [] := by
  decide

/-- Claim C1 (amended): every failing call (timeout, HTTP error, transport
error) emits exactly one CRITICAL service check whether or not it is
primary; a successful call emits exactly one OK service check when primary
and none otherwise. -/
theorem get_service_check_emission (url : String) (tags : List String)
    (outcome : HttpOutcome) (rc : Bool) :
    (∀ body, outcome = .success body →
      (CouchDb.get url outcome tags rc).2 =
        if rc then
          [⟨.ok, tags, "Connection to " ++ url ++ " was successful"⟩]
        else []) ∧
    ((∀ body, outcome ≠ .success body) →
      (CouchDb.get url outcome tags rc).2.length = 1 ∧
      ∀ sc ∈ (CouchDb.get url outcome tags rc).2,
        sc.status = .critical ∧ sc.tags = tags) := by
  constructor
  · rintro body rfl; rfl
  · intro h
    cases outcome with
    | success body => exact absurd rfl (h body)
    | timeout => exact ⟨rfl, by simp [CouchDb.get]⟩
    | httpError code => exact ⟨rfl, by simp [CouchDb.get]⟩
    | transportError msg => exact ⟨rfl, by simp [CouchDb.get]⟩

theorem get_service_check_emission_witness :
    (CouchDb.get "http://s" (.success (.obj [])) ["instance:n"] true).2 =
      [⟨.ok, ["instance:n"], "Connection to http://s was successful"⟩] ∧
    (CouchDb.get "http://s" .timeout ["instance:n"] false).2.length = 1 :=
  ⟨by
    have h := (get_service_check_emission "http://s" ["instance:n"]
      (.success (.obj [])) true).1 (.obj []) rfl
    simpa using h,
   ((get_service_check_emission "http://s" ["instance:n"] .timeout false).2
     (fun b h => HttpOutcome.noConfusion h)).1⟩

/-- Claim C10: the v2 flattener only tolerates mappings (or values whose
membership test does not match `"type"`) during traversal — a key mapped
directly to a number raises a `TypeError` at the `"type" in value` test,
and a list containing the string `type` raises a `TypeError` at
`value["type"]`, instead of the leaf being skipped; a list not containing
`type` is skipped silently. -/
theorem build_metrics_nonmapping_type_error (tags : List String) :
    CouchDB2.build_metrics (.obj [("a", .num 3)]) tags =
      ([], some (.py (.typeError "argument is not iterable"))) ∧
    CouchDB2.build_metrics (.obj [("a", .arr [.str "type"])]) tags =
      ([], some (.py (.typeError "list indices must be integers"))) ∧
    CouchDB2.build_metrics (.obj [("a", .arr [.num 1])]) tags = ([], none) :=
  ⟨rfl, rfl, rfl⟩

theorem buildPercentilePairs_pairs (pre : String) (tags : List String)
    (key : String) (ps : List (Int × Int)) :
    CouchDB2.buildPercentilePairs pre tags key
      (ps.map (fun p => .arr [.num p.1, .num p.2])) =
    (ps.map (fun p => (⟨pre ++ "." ++ key ++ ".percentile." ++ toString p.1,
       .num p.2, tags, none⟩ : Gauge)), none) := by
  induction ps with
  | nil => rfl
  | cons p rest ih =>
    simp [CouchDB2.buildPercentilePairs, Json.index, Json.pyStr, ih]

theorem buildHistogram_others (pre : String) (tags : List String)
    (key : String) :
    ∀ others : List (String × Json),
      (∀ p ∈ others, p.1 ≠ "histogram" ∧ p.1 ≠ "percentile") →
      CouchDB2.buildHistogram pre tags key others =
      (others.map (fun p =>
        (⟨pre ++ "." ++ key ++ "." ++ p.1, p.2, tags, none⟩ : Gauge)), none) := by
  intro others
  induction others with
  | nil => intro _; rfl
  | cons p rest ih =>
    intro h
    obtain ⟨hm, hp⟩ := h p (by simp)
    obtain ⟨m, v⟩ := p
    rw [CouchDB2.buildHistogram, if_neg hm, if_neg hp,
      ih (fun q hq => h q (by simp [hq]))]
    rfl

/-- Claim C5: flattening a histogram-typed node emits exactly one gauge
`<prefix>.<key>.percentile.<label>` per percentile pair, one gauge
`<prefix>.<key>.<metric>` per other entry of the value map, and nothing for
the `histogram` entry itself. -/
theorem histogram_flattening (pre key : String) (tags : List String)
    (hs : List Json) (ps : List (Int × Int)) (others : List (String × Json))
    (hothers : ∀ p ∈ others, p.1 ≠ "histogram" ∧ p.1 ≠ "percentile") :
    CouchDB2.buildEntries pre tags
      [(key, .obj [("type", .str "histogram"),
                   ("value", .obj ([("histogram", .arr hs),
                                    ("percentile", pairsJson ps)] ++ others))])] =
    (ps.map (fun p => (⟨pre ++ "." ++ key ++ ".percentile." ++ toString p.1,
        .num p.2, tags, none⟩ : Gauge)) ++
     others.map (fun p =>
        (⟨pre ++ "." ++ key ++ "." ++ p.1, p.2, tags, none⟩ : Gauge)),
     none) := by
  have hhist : CouchDB2.buildHistogram pre tags key
      (("histogram", .arr hs) :: ("percentile", pairsJson ps) :: others) =
      (ps.map (fun p => (⟨pre ++ "." ++ key ++ ".percentile." ++ toString p.1,
          .num p.2, tags, none⟩ : Gauge)) ++
       others.map (fun p =>
          (⟨pre ++ "." ++ key ++ "." ++ p.1, p.2, tags, none⟩ : Gauge)),
       none) := by
    rw [CouchDB2.buildHistogram, if_pos rfl, CouchDB2.buildHistogram]
    rw [if_neg (by decide), if_pos rfl]
    simp only [pairsJson, CouchDB2.buildPercentile]
    rw [buildPercentilePairs_pairs, buildHistogram_others pre tags key others hothers]
  simp [CouchDB2.buildEntries, CouchDB2.buildValue, Json.hasMember,
    CouchDB2.typedEntry, Json.getItem, jlookup, hhist]

theorem histogram_flattening_witness :
    CouchDB2.buildEntries "prefix" ["instance:n"]
      [("key", .obj [("type", .str "histogram"),
        ("value", .obj [("histogram", .arr [.num 1, .num 2]),
          ("percentile", pairsJson [(50, 12), (90, 45)]),
          ("min", .num 1)])])] =
    ([⟨"prefix.key.percentile.50", .num 12, ["instance:n"], none⟩,
      ⟨"prefix.key.percentile.90", .num 45, ["instance:n"], none⟩,
      ⟨"prefix.key.min", .num 1, ["instance:n"], none⟩], none) := by
  have h := histogram_flattening "prefix" "key" ["instance:n"]
    [.num 1, .num 2] [(50, 12), (90, 45)] [("min", .num 1)] (by decide)
  simpa using h

theorem jlookup_of_any (k : String) :
    ∀ fields : List (String × Json),
      fields.any (fun r => r.1 = k) = true →
      ∃ x, jlookup fields k = some x := by
  intro fields
  induction fields with
  | nil => intro h; simp at h
  | cons p rest ih =>
    intro h
    obtain ⟨k', v⟩ := p
    by_cases hk : k' = k
    · exact ⟨v, by simp [jlookup, hk]⟩
    · rw [List.any_cons] at h
      simp only [Bool.or_eq_true, decide_eq_true_eq] at h
      rcases h with h | h
      · exact absurd h hk
      · obtain ⟨x, hx⟩ := ih (by simpa using h)
        exact ⟨x, by simp [jlookup, hk, hx]⟩

theorem flattenCategory_wf (key : String) (tags : List String) :
    ∀ ms : List (String × Json),
      (ms.all (fun q => match q.2 with
        | Json.obj fields => fields.any (fun r => r.1 = "current")
        | _ => false) = true) →
      CouchDB1.flattenCategory key tags ms =
      (ms.flatMap (fun m =>
        match currentOf m.2 with
        | some cur =>
          if cur = Json.null then []
          else [(⟨"couchdb." ++ key ++ "." ++ m.1, cur, tags, none⟩ : Gauge)]
        | none => []), none) := by
  intro ms
  induction ms with
  | nil => intro _; rfl
  | cons q rest ih =>
    intro h
    obtain ⟨m, v⟩ := q
    rw [List.all_cons, Bool.and_eq_true] at h
    obtain ⟨hq, hrest⟩ := h
    match v, hq with
    | Json.obj fields, hq =>
      obtain ⟨cur, hcur⟩ := jlookup_of_any "current" fields hq
      have hget : Json.getItem (Json.obj fields) "current" = .ok cur := by
        simp [Json.getItem, hcur]
      rw [CouchDB1.flattenCategory, hget, ih hrest]
      simp [currentOf, hcur]

theorem flattenStats_wf (tags : List String) :
    ∀ cats : List (String × Json),
      v1WellFormedStats (.obj cats) = true →
      CouchDB1.flattenStats tags cats = (specV1Flatten cats tags, none) := by
  intro cats
  induction cats with
  | nil => intro _; rfl
  | cons c rest ih =>
    intro h
    obtain ⟨k, cv⟩ := c
    simp only [v1WellFormedStats, List.all_cons, Bool.and_eq_true] at h
    obtain ⟨hc, hrest⟩ := h
    match cv, hc with
    | Json.obj ms, hc =>
      rw [CouchDB1.flattenStats, flattenCategory_wf k tags ms hc,
        ih (by simpa [v1WellFormedStats] using hrest)]
      simp [specV1Flatten]

/-- Claim C7: on a well-formed v1 global stats document, the flattening
loop raises nothing and produces exactly the spec-side flattening — one
gauge `couchdb.<category>.<metric>` with the leaf's `current` value for
every leaf whose `current` is non-null, and nothing for a leaf whose
`current` is null (so every produced gauge carries a non-null value). -/
theorem v1_global_flattening (cats : List (String × Json))
    (tags : List String)
    (hwf : v1WellFormedStats (.obj cats) = true) :
    CouchDB1.flattenStats tags cats = (specV1Flatten cats tags, none) ∧
    ∀ g ∈ specV1Flatten cats tags, g.value ≠ Json.null := by
  refine ⟨flattenStats_wf tags cats hwf, ?_⟩
  intro g hg
  rw [specV1Flatten, List.mem_flatMap] at hg
  obtain ⟨c, _, hg⟩ := hg
  rw [List.mem_flatMap] at hg
  obtain ⟨m, _, hg⟩ := hg
  revert hg
  cases hcur : currentOf m.2 with
  | none => intro hg; simp at hg
  | some cur =>
    intro hg
    by_cases hnull : cur = Json.null
    · simp [hnull] at hg
    · simp only [if_neg hnull, List.mem_singleton] at hg
      subst hg
      exact hnull

theorem v1_global_flattening_witness :
    CouchDB1.flattenStats ["instance:s"]
      [("couchdb", .obj [("auth_cache_hits", .obj [("current", .num 5)]),
        ("auth_cache_misses", .obj [("current", .null)])])] =
    ([⟨"couchdb.couchdb.auth_cache_hits", .num 5, ["instance:s"], none⟩],
     none) := by
  have h := (v1_global_flattening
    [("couchdb", .obj [("auth_cache_hits", .obj [("current", .num 5)]),
      ("auth_cache_misses", .obj [("current", .null)])])]
    ["instance:s"] (by decide)).1
  rw [h]
  decide

/-- Claim C2, counterexample: with discovered databases `a, b, c` where `b`
answers HTTP 500 (not 401/403), the run does not fail and later databases
are still fetched — and `b`'s entry silently receives the stats document
fetched for `a` (the stale `db_stats` local). -/
theorem v1_nonauth_counterexample :
    (CouchDB1.get_data envStale "http://s" Instance.base
      ["instance:http://s"] []).result =
      .ok ⟨.obj [], [("a", some docA), ("b", some docA), ("c", some docC)]⟩ ∧
    (CouchDB1.get_data envStale "http://s" Instance.base
      ["instance:http://s"] []).fetchedDbs = ["a", "b", "c"] := by
  decide

/-- Claim C2 (amended): a per-database HTTP error with a status other than
401/403 is caught, not propagated.  The failing database first gets a
`None` entry; the following `if db_stats is not None:` test then reads the
stale local from the previous iteration — when no previous fetch bound it,
the run dies with an unbound-local `NameError`; when the previous fetch
bound it to a non-null document, that document is recorded under the
failing database's name and the loop continues with the remaining
databases. -/
theorem v1_nonauth_http_error (env : ServerEnv) (server : String)
    (tags : List String) (st : LoopState) (dbName : String)
    (rest : List String) (code : Nat)
    (hout : env.db dbName = .httpError code)
    (h401 : code ≠ 401) (h403 : code ≠ 403) :
    (st.reg = none →
      CouchDB1.dbLoop env server tags st (dbName :: rest) =
        ({ st with
            results := dictSet st.results dbName none
            serviceChecks := st.serviceChecks ++
              [⟨.critical, tags, toString code ++ " Error for url: " ++
                urljoin server (CouchDB1.dbPathComponent dbName)⟩]
            fetched := st.fetched ++ [dbName] },
         some (.py (.nameError "db_stats")))) ∧
    (∀ v, st.reg = some v → v ≠ Json.null →
      CouchDB1.dbLoop env server tags st (dbName :: rest) =
        CouchDB1.dbLoop env server tags
          { st with
              results := dictSet (dictSet st.results dbName none) dbName (some v)
              serviceChecks := st.serviceChecks ++
                [⟨.critical, tags, toString code ++ " Error for url: " ++
                  urljoin server (CouchDB1.dbPathComponent dbName)⟩]
              fetched := st.fetched ++ [dbName] } rest) := by
  constructor
  · intro hreg
    rw [CouchDB1.dbLoop, hout]
    simp [CouchDb.get, h401, h403, hreg]
  · intro v hreg hv
    rw [CouchDB1.dbLoop, hout]
    simp [CouchDb.get, h401, h403, hreg, hv]

theorem v1_nonauth_http_error_witness :
    (CouchDB1.dbLoop envStale "http://s" ["t"]
      ⟨[], [], none, [], [], []⟩ ["b"]).2 =
      some (.py (.nameError "db_stats")) ∧
    (CouchDB1.dbLoop envStale "http://s" ["t"]
      ⟨[], [], some docA, [], [], []⟩ ["b", "c"]).1.results =
      [("b", some docA), ("c", some docC)] := by
  constructor
  · rw [(v1_nonauth_http_error envStale "http://s" ["t"] _ "b" [] 500
      (by decide) (by decide) (by decide)).1 rfl]
  · rw [(v1_nonauth_http_error envStale "http://s" ["t"] _ "b" ["c"] 500
      (by decide) (by decide) (by decide)).2 docA rfl (by decide)]
    decide

/-- Claim C4: on the first check call the root endpoint is probed (a
primary call) and the extractor is selected by the version string's
prefix — `1.` picks the v1 extractor, `2.` picks v2, anything else raises
the unsupported-version error and leaves the checker unresolved; on every
later call with a resolved checker there is no probe and the same extractor
(the v1 one together with its blacklist state) is kept. -/
theorem version_dispatch (env : ServerEnv) (inst : Instance)
    (server : String) (hs : inst.server = some server) :
    ((CouchDb.check env inst none).probedRoot = true) ∧
    (∀ body version, env.root = .success body →
      body.getItem "version" = .ok (.str version) →
      ((pyStartswith version "1." = true →
          ∃ bl, (CouchDb.check env inst none).checker = some (.v1 bl)) ∧
       (¬ pyStartswith version "1." = true → pyStartswith version "2." = true →
          (CouchDb.check env inst none).checker = some .v2) ∧
       (¬ pyStartswith version "1." = true → ¬ pyStartswith version "2." = true →
          (CouchDb.check env inst none).result =
            .error (.unknownVersion version) ∧
          (CouchDb.check env inst none).checker = none))) ∧
    (∀ bl, (CouchDb.check env inst (some (.v1 bl))).probedRoot = false ∧
       ∃ bl2, (CouchDb.check env inst (some (.v1 bl))).checker =
         some (.v1 bl2)) ∧
    ((CouchDb.check env inst (some .v2)).probedRoot = false ∧
     (CouchDb.check env inst (some .v2)).checker = some .v2) := by
  refine ⟨?_, ?_, ?_, ?_⟩
  · rw [CouchDb.check, hs]
    cases henv : env.root with
    | success body =>
      simp only [CouchDb.get]
      cases hver : body.getItem "version" with
      | error e => rfl
      | ok v =>
        cases v <;> try rfl
        rename_i version
        by_cases h1 : pyStartswith version "1." = true
        · simp [h1, CouchDb.runChecker]
        · by_cases h2 : pyStartswith version "2." = true
          · simp [h1, h2, CouchDb.runChecker]
          · simp [h1, h2]
    | timeout => rfl
    | httpError code => rfl
    | transportError msg => rfl
  · intro body version hroot hver
    rw [CouchDb.check, hs, hroot]
    simp only [CouchDb.get, hver]
    refine ⟨?_, ?_, ?_⟩
    · intro h1
      simp [h1, CouchDb.runChecker]
    · intro h1 h2
      simp [h1, h2, CouchDb.runChecker]
    · intro h1 h2
      simp [h1, h2]
  · intro bl
    rw [CouchDb.check, hs]
    exact ⟨rfl, _, rfl⟩
  · rw [CouchDb.check, hs]
    exact ⟨rfl, rfl⟩

theorem version_dispatch_witness :
    (∃ bl, (CouchDb.check (envRoot "1.6.0")
      ⟨some "s", none, none, none, some "n", none, []⟩ none).checker =
        some (.v1 bl)) ∧
    (CouchDb.check (envRoot "2.3.1")
      ⟨some "s", none, none, none, some "n", none, []⟩ none).checker =
        some .v2 ∧
    (CouchDb.check (envRoot "3.0.0")
      ⟨some "s", none, none, none, some "n", none, []⟩ none).result =
        .error (.unknownVersion "3.0.0") ∧
    (CouchDb.check (envRoot "2.3.1")
      ⟨some "s", none, none, none, some "n", none, []⟩ (some .v2)).probedRoot =
        false := by
  refine ⟨?_, ?_, ?_, ?_⟩
  · exact ((version_dispatch (envRoot "1.6.0") _ "s" rfl).2.1 _ "1.6.0"
      rfl rfl).1 (by decide)
  · exact ((version_dispatch (envRoot "2.3.1") _ "s" rfl).2.1 _ "2.3.1"
      rfl rfl).2.1 (by decide) (by decide)
  · exact (((version_dispatch (envRoot "3.0.0") _ "s" rfl).2.1 _ "3.0.0"
      rfl rfl).2.2 (by decide) (by decide)).1
  · exact (version_dispatch (envRoot "2.3.1") _ "s" rfl).2.2.2.1

theorem selectDbs_spec (all_dbs blServer : List String)
    (wl : Option (List String))
    (hwl : wl = none ∨ ∃ w, wl = some w ∧ w ≠ []) :
    CouchDB1.selectDbs all_dbs blServer wl =
      specV1EffectiveDbs all_dbs blServer wl := by
  rcases hwl with rfl | ⟨w, rfl, hw⟩
  · rfl
  · simp [CouchDB1.selectDbs, specV1EffectiveDbs, hw]

/-- Claim C8, counterexample: an empty configured whitelist is falsy in
Python, so the intersection step is skipped — the claim's set (discovered
minus blacklist, intersected with the configured empty whitelist) is empty,
yet all three databases are polled. -/
theorem db_selection_counterexample :
    (CouchDB1.get_data envSel "s"
      ⟨some "s", none, none, none, none, some [], []⟩
      ["instance:s"] []).polled = ["_users", "_replicator", "kennel"] ∧
    specV1EffectiveDbs ["_users", "_replicator", "kennel"] [] (some []) =
      [] := by
  decide

/-- Claim C8 (amended): in v1, when the configured whitelist is absent or
nonempty (an empty one is falsy in Python and skips the intersection) and
at most `MAX_DB` databases survive, the polled list is exactly the
discovered list minus the server's blacklist, intersected with the
whitelist when one is configured; in v2, when every candidate fetch
succeeds and flattens cleanly, a database is fetched iff no whitelist is
configured or its name is in the whitelist. -/
theorem db_selection (env : ServerEnv) (server : String) (inst : Instance)
    (tags : List String) (bl0 : Blacklist) (stats dbsJson : Json)
    (all_dbs : List String)
    (h1 : env.stats = .success stats) (h2 : stats ≠ Json.null)
    (h3 : env.allDbs = .success dbsJson)
    (h4 : dbsJson.asStringList = some all_dbs)
    (hwl : inst.db_whitelist = none ∨
      ∃ w, inst.db_whitelist = some w ∧ w ≠ [])
    (hlen : (specV1EffectiveDbs all_dbs
      (Blacklist.getAt (Blacklist.extendAt
        (Blacklist.setdefaultAt bl0 server) server inst.db_blacklist) server)
      inst.db_whitelist).length ≤ CouchDB1.MAX_DB) :
    (CouchDB1.get_data env server inst tags bl0).polled =
      specV1EffectiveDbs all_dbs
        (Blacklist.getAt (Blacklist.extendAt
          (Blacklist.setdefaultAt bl0 server) server inst.db_blacklist)
          server)
        inst.db_whitelist ∧
    (∀ nm wl dbs,
      (∀ d ∈ dbs, ∃ doc, env.db d = .success doc ∧
        (CouchDB2.build_db_metrics doc
          ["instance:" ++ nm, "db:" ++ d]).2 = none) →
      (CouchDB2.dbLoop env server nm wl dbs).fetched =
        dbs.filter (fun d => match wl with
          | none => true
          | some w => w.contains d)) := by
  constructor
  · rw [CouchDB1.get_data, h1]
    simp only [CouchDb.get]
    rw [if_neg h2, h3]
    simp only [CouchDb.get, h4]
    rw [selectDbs_spec all_dbs _ inst.db_whitelist hwl]
    rw [if_neg (by omega)]
    rcases hdl : CouchDB1.dbLoop env server tags
      ⟨[], Blacklist.getAt (Blacklist.extendAt
        (Blacklist.setdefaultAt bl0 server) server inst.db_blacklist) server,
       none, [], [], []⟩
      (specV1EffectiveDbs all_dbs
        (Blacklist.getAt (Blacklist.extendAt
          (Blacklist.setdefaultAt bl0 server) server inst.db_blacklist)
          server) inst.db_whitelist) with ⟨stF, err⟩
    cases err <;> rfl
  · intro nm wl dbs hok
    induction dbs with
    | nil => rfl
    | cons d rest ih =>
      obtain ⟨doc, hdoc, hbuild⟩ := hok d (by simp)
      have hrest := ih (fun q hq => hok q (by simp [hq]))
      rw [CouchDB2.dbLoop.eq_def]
      rcases hbm : CouchDB2.build_db_metrics doc
        ["instance:" ++ nm, "db:" ++ d] with ⟨gs, err⟩
      cases wl with
      | none =>
        cases err with
        | none => simp [hdoc, CouchDb.get, hbm, hrest]
        | some e => rw [hbm] at hbuild; simp at hbuild
      | some w =>
        by_cases hw : d ∈ w
        · cases err with
          | none => simp [hdoc, CouchDb.get, hbm, hrest, hw]
          | some e => rw [hbm] at hbuild; simp at hbuild
        · simp [hrest, hw]

theorem db_selection_witness :
    (CouchDB1.get_data envSel "s"
      ⟨some "s", none, none, none, none, some ["_users"], []⟩
      ["instance:s"] []).polled = ["_users"] ∧
    (CouchDB2.dbLoop envSel "s" "n" (some ["_users"])
      ["_users", "_replicator", "kennel"]).fetched = ["_users"] := by
  constructor
  · have h := (db_selection envSel "s"
      ⟨some "s", none, none, none, none, some ["_users"], []⟩
      ["instance:s"] [] (.obj [])
      (.arr [.str "_users", .str "_replicator", .str "kennel"])
      ["_users", "_replicator", "kennel"] rfl (by decide) rfl rfl
      (Or.inr ⟨["_users"], rfl, by decide⟩) (by decide)).1
    rw [h]
    decide
  · have h := (db_selection envSel "s"
      ⟨some "s", none, none, none, none, some ["_users"], []⟩
      ["instance:s"] [] (.obj [])
      (.arr [.str "_users", .str "_replicator", .str "kennel"])
      ["_users", "_replicator", "kennel"] rfl (by decide) rfl rfl
      (Or.inr ⟨["_users"], rfl, by decide⟩) (by decide)).2 "n"
      (some ["_users"]) ["_users", "_replicator", "kennel"]
      (fun d _ => ⟨docDb2, rfl, rfl⟩)
    rw [h]
    decide

theorem listStartsWith_append (l m : List Char) :
    listStartsWith (l ++ m) l = true := by
  induction l with
  | nil => cases m <;> rfl
  | cons c cs ih => simp [listStartsWith, ih]

theorem strStartsWith_append (p s : String) :
    listStartsWith (p ++ s).toList p.toList = true := by
  show listStartsWith (p.toList ++ s.toList) p.toList = true
  exact listStartsWith_append p.toList s.toList

theorem buildPercentilePairs_tags (pre : String) (tags : List String)
    (key : String) :
    ∀ ps : List Json,
      ∀ g ∈ (CouchDB2.buildPercentilePairs pre tags key ps).1,
        g.tags = tags ∧ g.device = none := by
  intro ps
  induction ps with
  | nil => simp [CouchDB2.buildPercentilePairs]
  | cons p rest ih =>
    intro g hg
    rw [CouchDB2.buildPercentilePairs] at hg
    rcases h0 : p.index 0 with e | p0
    · rw [h0] at hg; simp at hg
    · rw [h0] at hg
      rcases h1 : p.index 1 with e | p1
      · rw [h1] at hg; simp at hg
      · rw [h1] at hg
        rcases hr : CouchDB2.buildPercentilePairs pre tags key rest
          with ⟨gs, err⟩
        rw [hr] at hg
        simp at hg
        rcases hg with rfl | hg
        · exact ⟨rfl, rfl⟩
        · exact ih g (by rw [hr]; exact hg)

theorem buildPercentile_tags (pre : String) (tags : List String)
    (key : String) (v : Json) :
    ∀ g ∈ (CouchDB2.buildPercentile pre tags key v).1,
      g.tags = tags ∧ g.device = none := by
  cases v <;> simp [CouchDB2.buildPercentile]
  exact fun g hg => buildPercentilePairs_tags pre tags key _ g hg

theorem buildHistogram_tags (pre : String) (tags : List String)
    (key : String) :
    ∀ m : List (String × Json),
      ∀ g ∈ (CouchDB2.buildHistogram pre tags key m).1,
        g.tags = tags ∧ g.device = none := by
  intro m
  induction m with
  | nil => simp [CouchDB2.buildHistogram]
  | cons p rest ih =>
    intro g hg
    obtain ⟨metric, v⟩ := p
    rw [CouchDB2.buildHistogram] at hg
    by_cases h1 : metric = "histogram"
    · rw [if_pos h1] at hg
      exact ih g hg
    · rw [if_neg h1] at hg
      by_cases h2 : metric = "percentile"
      · rw [if_pos h2] at hg
        rcases hp : CouchDB2.buildPercentile pre tags key v with ⟨gs, err⟩
        rw [hp] at hg
        cases err with
        | some e =>
          exact buildPercentile_tags pre tags key v g (by rw [hp]; exact hg)
        | none =>
          rcases hr : CouchDB2.buildHistogram pre tags key rest with ⟨gs2, err2⟩
          rw [hr] at hg
          simp at hg
          rcases hg with hg | hg
          · exact buildPercentile_tags pre tags key v g (by rw [hp]; exact hg)
          · exact ih g (by rw [hr]; exact hg)
      · rw [if_neg h2] at hg
        rcases hr : CouchDB2.buildHistogram pre tags key rest with ⟨gs2, err2⟩
        rw [hr] at hg
        simp at hg
        rcases hg with rfl | hg
        · exact ⟨rfl, rfl⟩
        · exact ih g (by rw [hr]; exact hg)

theorem typedEntry_tags (pre : String) (tags : List String) (key : String)
    (value : Json) :
    ∀ g ∈ (CouchDB2.typedEntry pre tags key value).1,
      g.tags = tags ∧ g.device = none := by
  intro g hg
  rw [CouchDB2.typedEntry] at hg
  rcases ht : value.getItem "type" with e | t
  · simp only [ht] at hg; simp at hg
  · simp only [ht] at hg
    by_cases hh : t = .str "histogram"
    · rw [if_pos hh] at hg
      rcases hv : value.getItem "value" with e | inner
      · simp only [hv] at hg; simp at hg
      · simp only [hv] at hg
        cases inner with
        | obj m => exact buildHistogram_tags pre tags key m g hg
        | null => simp at hg
        | bool b => simp at hg
        | num n => simp at hg
        | str s => simp at hg
        | arr l => simp at hg
    · rw [if_neg hh] at hg
      rcases hv : value.getItem "value" with e | inner
      · simp only [hv] at hg; simp at hg
      · simp only [hv] at hg
        simp at hg
        subst hg
        exact ⟨rfl, rfl⟩

theorem buildEntries_tags (pre : String) (tags : List String)
    (l : List (String × Json)) :
    ∀ g ∈ (CouchDB2.buildEntries pre tags l).1,
      g.tags = tags ∧ g.device = none := by
  refine CouchDB2.buildEntries.induct
    (fun pre tags key value =>
      ∀ g ∈ (CouchDB2.buildValue pre tags key value).1,
        g.tags = tags ∧ g.device = none)
    (fun pre tags l =>
      ∀ g ∈ (CouchDB2.buildEntries pre tags l).1,
        g.tags = tags ∧ g.device = none)
    ?_ ?_ ?_ ?_ ?_ ?_ ?_ pre tags l
  · intro t pre tags key e he g hg
    rw [CouchDB2.buildValue.eq_2 pre tags key t
      (by rintro metrics rfl; simp [Json.hasMember] at he)] at hg
    simp only [he] at hg
    simp at hg
  · intro t pre tags key he g hg
    by_cases hobj : ∃ metrics, t = Json.obj metrics
    · obtain ⟨metrics, rfl⟩ := hobj
      rw [CouchDB2.buildValue.eq_1] at hg
      simp only [he] at hg
      exact typedEntry_tags pre tags key _ g hg
    · rw [CouchDB2.buildValue.eq_2 pre tags key t
        (fun m hm => hobj ⟨m, hm⟩)] at hg
      simp only [he] at hg
      exact typedEntry_tags pre tags key t g hg
  · intro pre tags key metrics he ih g hg
    rw [CouchDB2.buildValue.eq_1] at hg
    simp only [he] at hg
    exact ih g hg
  · intro t pre tags key he hnot g hg
    rw [CouchDB2.buildValue.eq_2 pre tags key t
      (fun m hm => hnot m hm)] at hg
    simp only [he] at hg
    simp at hg
  · intro pre tags g hg
    simp [CouchDB2.buildEntries] at hg
  · intro pre tags k v rest gs e hbv ih g hg
    rw [CouchDB2.buildEntries] at hg
    simp only [hbv] at hg
    exact ih g (by rw [hbv]; exact hg)
  · intro pre tags k v rest gs hbv gs2 err2 hbe ih1 ih2 g hg
    rw [CouchDB2.buildEntries] at hg
    simp only [hbv, hbe] at hg
    simp at hg
    rcases hg with hg | hg
    · exact ih1 g (by rw [hbv]; exact hg)
    · exact ih2 g (by rw [hbe]; exact hg)

theorem flattenCategory_tags (key : String) (tags : List String) :
    ∀ ms, ∀ g ∈ (CouchDB1.flattenCategory key tags ms).1,
      g.tags = tags ∧ g.device = none := by
  intro ms
  induction ms with
  | nil => simp [CouchDB1.flattenCategory]
  | cons q rest ih =>
    intro g hg
    obtain ⟨m, v⟩ := q
    rw [CouchDB1.flattenCategory] at hg
    rcases hc : v.getItem "current" with e | cur
    · simp only [hc] at hg; simp at hg
    · simp only [hc] at hg
      rcases hr : CouchDB1.flattenCategory key tags rest with ⟨gs, err⟩
      simp only [hr] at hg
      by_cases hnull : cur = Json.null
      · simp only [if_pos hnull] at hg
        simp at hg
        exact ih g (by rw [hr]; exact hg)
      · simp only [if_neg hnull] at hg
        simp at hg
        rcases hg with rfl | hg
        · exact ⟨rfl, rfl⟩
        · exact ih g (by rw [hr]; exact hg)

theorem flattenStats_tags (tags : List String) :
    ∀ cats, ∀ g ∈ (CouchDB1.flattenStats tags cats).1,
      g.tags = tags ∧ g.device = none := by
  intro cats
  induction cats with
  | nil => simp [CouchDB1.flattenStats]
  | cons c rest ih =>
    intro g hg
    obtain ⟨k, cv⟩ := c
    cases cv with
    | obj metrics =>
      rw [CouchDB1.flattenStats] at hg
      rcases hfc : CouchDB1.flattenCategory k tags metrics with ⟨gs, err⟩
      simp only [hfc] at hg
      cases err with
      | some e =>
        simp at hg
        exact flattenCategory_tags k tags metrics g (by rw [hfc]; simpa using hg)
      | none =>
        rcases hr : CouchDB1.flattenStats tags rest with ⟨gs2, err2⟩
        simp only [hr] at hg
        simp at hg
        rcases hg with hg | hg
        · exact flattenCategory_tags k tags metrics g
            (by rw [hfc]; simpa using hg)
        · exact ih g (by rw [hr]; simpa using hg)
    | null => simp [CouchDB1.flattenStats] at hg
    | bool b => simp [CouchDB1.flattenStats] at hg
    | num n => simp [CouchDB1.flattenStats] at hg
    | str s2 => simp [CouchDB1.flattenStats] at hg
    | arr es => simp [CouchDB1.flattenStats] at hg

theorem flattenDb_tags (tags : List String) (db_name : String) :
    ∀ fs, ∀ g ∈ CouchDB1.flattenDb tags db_name fs,
      g.tags = tags ++ ["db:" ++ db_name] ∧ g.device = some db_name ∧
      listStartsWith g.name.toList "couchdb.by_db.".toList = true := by
  intro fs
  induction fs with
  | nil => simp [CouchDB1.flattenDb]
  | cons p rest ih =>
    intro g hg
    obtain ⟨n, v⟩ := p
    rw [CouchDB1.flattenDb] at hg
    by_cases hc : (n = "doc_count" ∨ n = "disk_size") ∧ v ≠ Json.null
    · rw [if_pos hc] at hg
      simp at hg
      rcases hg with rfl | hg
      · exact ⟨rfl, rfl, strStartsWith_append "couchdb.by_db." n⟩
      · exact ih g hg
    · rw [if_neg hc] at hg
      simp at hg
      exact ih g hg

theorem flattenDatabases_tags (tags : List String) :
    ∀ dbs : List (String × Option Json),
      ∀ g ∈ (CouchDB1.flattenDatabases tags dbs).1,
        ∃ db, db ∈ dbs.map Prod.fst ∧
          g.tags = tags ++ ["db:" ++ db] ∧ g.device = some db ∧
          listStartsWith g.name.toList "couchdb.by_db.".toList = true := by
  intro dbs
  induction dbs with
  | nil => simp [CouchDB1.flattenDatabases]
  | cons p rest ih =>
    intro g hg
    obtain ⟨db_name, dstats⟩ := p
    cases dstats with
    | none => simp [CouchDB1.flattenDatabases] at hg
    | some j =>
      cases j with
      | obj fields =>
        rw [CouchDB1.flattenDatabases] at hg
        rcases hr : CouchDB1.flattenDatabases tags rest with ⟨gs2, err⟩
        simp only [hr] at hg
        simp at hg
        rcases hg with hg | hg
        · exact ⟨db_name, by simp, flattenDb_tags tags db_name fields g hg⟩
        · obtain ⟨db, hdb, hrest⟩ := ih g (by rw [hr]; simpa using hg)
          exact ⟨db, by simp [hdb], hrest⟩
      | null => simp [CouchDB1.flattenDatabases] at hg
      | bool b => simp [CouchDB1.flattenDatabases] at hg
      | num n => simp [CouchDB1.flattenDatabases] at hg
      | str s2 => simp [CouchDB1.flattenDatabases] at hg
      | arr es => simp [CouchDB1.flattenDatabases] at hg

theorem create_metric_tags (data : CouchData) (tags : List String) :
    ∀ g ∈ (CouchDB1.create_metric data tags).1,
      (g.tags = tags ∧ g.device = none) ∨
      (∃ db, db ∈ data.databases.map Prod.fst ∧
        g.tags = tags ++ ["db:" ++ db] ∧ g.device = some db ∧
        listStartsWith g.name.toList "couchdb.by_db.".toList = true) := by
  intro g hg
  obtain ⟨stats, dbs⟩ := data
  rw [CouchDB1.create_metric] at hg
  cases stats with
  | obj categories =>
    rcases hfs : CouchDB1.flattenStats tags categories with ⟨gs, err⟩
    simp only [hfs] at hg
    cases err with
    | some e =>
      exact Or.inl (flattenStats_tags tags categories g (by rw [hfs]; exact hg))
    | none =>
      rcases hfd : CouchDB1.flattenDatabases tags dbs with ⟨gs2, err2⟩
      simp only [hfd] at hg
      simp at hg
      rcases hg with hg | hg
      · exact Or.inl (flattenStats_tags tags categories g (by rw [hfs]; exact hg))
      · exact Or.inr (flattenDatabases_tags tags dbs g (by rw [hfd]; exact hg))
  | null => simp at hg
  | bool b => simp at hg
  | num n => simp at hg
  | str s2 => simp at hg
  | arr es => simp at hg

theorem topFieldGauges_tags (data : Json) (tags : List String) :
    ∀ ks, ∀ g ∈ (CouchDB2.topFieldGauges data tags ks).1,
      g.tags = tags ∧ g.device = none ∧
      listStartsWith g.name.toList "couchdb.by_db.".toList = true := by
  intro ks
  induction ks with
  | nil => simp [CouchDB2.topFieldGauges]
  | cons k rest ih =>
    intro g hg
    rw [CouchDB2.topFieldGauges] at hg
    rcases hk : data.getItem k with e | v
    · simp only [hk] at hg; simp at hg
    · simp only [hk] at hg
      rcases hr : CouchDB2.topFieldGauges data tags rest with ⟨gs, err⟩
      simp only [hr] at hg
      simp at hg
      rcases hg with rfl | hg
      · exact ⟨rfl, rfl, strStartsWith_append "couchdb.by_db." k⟩
      · exact ih g (by rw [hr]; exact hg)

theorem build_db_metrics_tags (data : Json) (tags : List String) :
    ∀ g ∈ (CouchDB2.build_db_metrics data tags).1,
      g.tags = tags ∧ g.device = none ∧
      listStartsWith g.name.toList "couchdb.by_db.".toList = true := by
  intro g hg
  rw [CouchDB2.build_db_metrics] at hg
  rcases hsz : data.getItem "sizes" with e | sz
  · simp only [hsz] at hg; simp at hg
  · simp only [hsz] at hg
    cases sz with
    | obj sfields =>
      rcases ht : CouchDB2.topFieldGauges data tags
        ["purge_seq", "doc_del_count", "doc_count"] with ⟨gs2, err⟩
      simp only [ht] at hg
      simp at hg
      rcases hg with ⟨a, b, hmem, rfl⟩ | hg
      · refine ⟨rfl, rfl, ?_⟩
        have h2 : (("couchdb.by_db." ++ a) ++ "_size").toList =
            "couchdb.by_db.".toList ++ (a.toList ++ "_size".toList) := by
          show ("couchdb.by_db.".toList ++ a.toList) ++ "_size".toList = _
          rw [List.append_assoc]
        show listStartsWith (("couchdb.by_db." ++ a) ++ "_size").toList
          "couchdb.by_db.".toList = true
        rw [h2]
        exact listStartsWith_append _ _
      · exact topFieldGauges_tags data tags _ g (by rw [ht]; simpa using hg)
    | null => simp at hg
    | bool b => simp at hg
    | num n => simp at hg
    | str s2 => simp at hg
    | arr es => simp at hg

theorem dbLoop2_perDb_tags (env : ServerEnv) (server nm : String)
    (wl : Option (List String)) :
    ∀ dbs, ∀ p ∈ (CouchDB2.dbLoop env server nm wl dbs).perDb, ∀ g ∈ p.2,
      g.tags = ["instance:" ++ nm, "db:" ++ p.1] ∧ g.device = none ∧
      listStartsWith g.name.toList "couchdb.by_db.".toList = true := by
  intro dbs
  induction dbs with
  | nil => simp [CouchDB2.dbLoop]
  | cons d rest ih =>
    intro p hp g hg
    rw [CouchDB2.dbLoop.eq_def] at hp
    cases hf : (match wl with | none => true | some w => w.contains d) with
    | false =>
      simp only [hf] at hp
      simp at hp
      exact ih p hp g hg
    | true =>
      simp only [hf, if_true] at hp
      rcases hget : CouchDb.get (urljoin server (CouchDB2.dbPathComponent d))
        (env.db d) ["instance:" ++ nm, "db:" ++ d] false with ⟨res, scs⟩
      simp only [hget] at hp
      cases res with
      | error e => simp at hp
      | ok dta =>
        rcases hbm : CouchDB2.build_db_metrics dta
          ["instance:" ++ nm, "db:" ++ d] with ⟨gs, err⟩
        simp only [hbm] at hp
        cases err with
        | some e =>
          simp at hp
          subst hp
          exact build_db_metrics_tags dta _ g (by rw [hbm]; exact hg)
        | none =>
          simp at hp
          rcases hp with rfl | hp
          · exact build_db_metrics_tags dta _ g (by rw [hbm]; exact hg)
          · exact ih p hp g hg

theorem build_metrics_tags (data : Json) (tags : List String) :
    ∀ g ∈ (CouchDB2.build_metrics data tags).1,
      g.tags = tags ∧ g.device = none := by
  cases data <;> simp [CouchDB2.build_metrics]
  exact fun g hg => buildEntries_tags "couchdb" tags _ g hg

theorem check2_gauges (env : ServerEnv) (inst : Instance)
    (server nm : String) (hs : inst.server = some server)
    (hn : inst.name = some nm) :
    (∀ g ∈ (CouchDB2.check env inst).nodeGauges,
      g.tags = ["instance:" ++ nm] ∧ g.device = none) ∧
    (∀ p ∈ (CouchDB2.check env inst).perDbGauges, ∀ g ∈ p.2,
      g.tags = ["instance:" ++ nm, "db:" ++ p.1] ∧ g.device = none ∧
      listStartsWith g.name.toList "couchdb.by_db.".toList = true) := by
  rw [CouchDB2.check, hs, hn]
  rcases hget : CouchDb.get (urljoin server ("_node/" ++ nm ++ "/_stats"))
    (env.nodeStats nm) ["instance:" ++ nm] true with ⟨res, scs⟩
  simp only [hget]
  cases res with
  | error e => simp
  | ok stats =>
    dsimp only
    by_cases hnull : stats = Json.null
    · subst hnull
      simp
    · rw [if_neg hnull]
      rcases hbm : CouchDB2.build_metrics stats ["instance:" ++ nm]
        with ⟨gs1, err1⟩
      have hnode : ∀ g ∈ gs1, g.tags = ["instance:" ++ nm] ∧
          g.device = none :=
        fun g hg => build_metrics_tags stats ["instance:" ++ nm] g
          (by rw [hbm]; exact hg)
      cases err1 with
      | some e => exact ⟨fun g hg => hnode g hg, by simp⟩
      | none =>
        rcases hall : CouchDb.get (urljoin server "_all_dbs") env.allDbs
          ["instance:" ++ nm] false with ⟨res2, scs2⟩
        cases res2 with
        | error e => exact ⟨fun g hg => hnode g hg, by simp⟩
        | ok dbsJson =>
          cases hsl : dbsJson.asStringList with
          | none =>
            simp only [hsl]
            exact ⟨fun g hg => hnode g hg, by simp⟩
          | some all_dbs =>
            simp only [hsl]
            refine ⟨fun g hg => hnode g hg, ?_⟩
            intro p hp g hg
            exact dbLoop2_perDb_tags env server nm inst.db_whitelist all_dbs
              p (by simpa using hp) g hg

/-- Claim C9: every gauge either extractor emits carries the
`instance:<id>` tag (the server URL in v1, the configured node name in
v2), and every per-database gauge — the ones produced by the per-database
emission sites, marked by the device name in v1 and grouped by database in
v2, all named `couchdb.by_db.*` — additionally carries the `db:<name>` tag
of the database it describes. -/
theorem gauge_tagging (env : ServerEnv) (inst : Instance)
    (server nm : String) (bl0 : Blacklist) :
    (inst.server = some server →
      ∀ g ∈ (CouchDB1.check env inst bl0).gauges,
        ("instance:" ++ server) ∈ g.tags ∧
        ∀ db, g.device = some db →
          ("db:" ++ db) ∈ g.tags ∧
          listStartsWith g.name.toList "couchdb.by_db.".toList = true) ∧
    (inst.server = some server → inst.name = some nm →
      (∀ g ∈ (CouchDB2.check env inst).gauges,
        ("instance:" ++ nm) ∈ g.tags) ∧
      (∀ p ∈ (CouchDB2.check env inst).perDbGauges, ∀ g ∈ p.2,
        ("db:" ++ p.1) ∈ g.tags ∧
        listStartsWith g.name.toList "couchdb.by_db.".toList = true)) := by
  constructor
  · intro hs g hg
    rw [CouchDB1.check, hs] at hg
    rcases hres : (CouchDB1.get_data env server inst
      ["instance:" ++ server] bl0).result with e | data
    · simp only [hres] at hg
      simp at hg
    · simp only [hres] at hg
      rcases hcm : CouchDB1.create_metric data ["instance:" ++ server]
        with ⟨gs, err⟩
      simp only [hcm] at hg
      have hg2 : g ∈ gs := by cases err <;> simpa using hg
      have hcase := create_metric_tags data ["instance:" ++ server] g
        (by rw [hcm]; exact hg2)
      rcases hcase with ⟨ht, hd⟩ | ⟨db, hdbmem, ht, hd, hname⟩
      · refine ⟨(by rw [ht]; exact List.mem_singleton_self _), ?_⟩
        intro db hdev
        rw [hd] at hdev
        cases hdev
      · have hmem1 : ("instance:" ++ server) ∈ g.tags := by
          rw [ht]
          exact List.mem_append_left _ (List.mem_singleton_self _)
        refine ⟨hmem1, ?_⟩
        intro db2 hdev
        rw [hd] at hdev
        injection hdev with h
        rw [← h]
        have hmem2 : ("db:" ++ db) ∈ g.tags := by
          rw [ht]
          exact List.mem_append_right _ (List.mem_singleton_self _)
        exact ⟨hmem2, hname⟩
  · intro hs hn
    obtain ⟨h1, h2⟩ := check2_gauges env inst server nm hs hn
    constructor
    · intro g hg
      rw [CheckOut2.gauges] at hg
      rcases List.mem_append.mp hg with hg | hg
      · rw [(h1 g hg).1]
        exact List.mem_singleton_self _
      · rw [List.mem_flatten] at hg
        obtain ⟨l, hl, hgl⟩ := hg
        rw [List.mem_map] at hl
        obtain ⟨p, hp, rfl⟩ := hl
        rw [(h2 p hp g hgl).1]
        exact List.mem_cons_self _ _
    · intro p hp g hg
      obtain ⟨ht, hd, hname⟩ := h2 p hp g hg
      refine ⟨?_, hname⟩
      rw [ht]
      exact List.mem_cons_of_mem _ (List.mem_singleton_self _)

theorem gauge_tagging_witness :
    "instance:" ++ "s" ∈
      (⟨"couchdb.by_db.doc_count", .num 1, ["instance:s", "db:a"],
        some "a"⟩ : Gauge).tags ∧
    "instance:" ++ "n" ∈
      (⟨"couchdb.open_files", .num 7, ["instance:n"], none⟩ : Gauge).tags :=
  ⟨((gauge_tagging env401 ⟨some "s", none, none, none, none, none, []⟩
      "s" "n" []).1 rfl _ (by decide)).1,
   (((gauge_tagging env2 ⟨some "s", none, none, none, some "n", none, []⟩
      "s" "n" []).2 rfl rfl).1 _ (by decide))⟩

theorem db_tag_ne_instance_tag (a b : String) :
    "db:" ++ a ≠ "instance:" ++ b := by
  intro h
  have h2 : ("db:" ++ a).toList = ("instance:" ++ b).toList :=
    congrArg String.toList h
  rw [show ("db:" ++ a).toList = 'd' :: 'b' :: ':' :: a.toList from rfl,
    show ("instance:" ++ b).toList =
      'i' :: 'n' :: 's' :: 't' :: 'a' :: 'n' :: 'c' :: 'e' :: ':' :: b.toList
      from rfl] at h2
  simp at h2

theorem db_tag_inj {a b : String} (h : "db:" ++ a = "db:" ++ b) : a = b := by
  have h2 : ("db:" ++ a).toList = ("db:" ++ b).toList :=
    congrArg String.toList h
  rw [show ("db:" ++ a).toList = 'd' :: 'b' :: ':' :: a.toList from rfl,
    show ("db:" ++ b).toList = 'd' :: 'b' :: ':' :: b.toList from rfl] at h2
  simp at h2
  obtain ⟨la⟩ := a
  obtain ⟨lb⟩ := b
  have h3 : la = lb := by simpa using h2
  rw [h3]

theorem mem_dictSet {α : Type} {d : List (String × α)} {k : String} {v : α}
    {p : String × α} (hp : p ∈ dictSet d k v) : p ∈ d ∨ p.1 = k := by
  unfold dictSet at hp
  split at hp
  · rw [List.mem_map] at hp
    obtain ⟨q, hq, hqe⟩ := hp
    by_cases hk : q.1 = k
    · rw [if_pos hk] at hqe
      right
      rw [← hqe]
    · rw [if_neg hk] at hqe
      left
      rw [← hqe]
      exact hq
  · rw [List.mem_append] at hp
    rcases hp with hp | hp
    · exact Or.inl hp
    · right
      simp at hp
      rw [hp]

theorem mem_dictDel {α : Type} {d : List (String × α)} {k : String}
    {p : String × α} (hp : p ∈ dictDel d k) : p ∈ d ∧ p.1 ≠ k := by
  unfold dictDel at hp
  rw [List.mem_filter] at hp
  exact ⟨hp.1, by simpa using hp.2⟩

theorem getAt_of_not_present (server : String) :
    ∀ bl : Blacklist, bl.any (fun p => p.1 = server) = false →
      Blacklist.getAt bl server = [] := by
  intro bl
  induction bl with
  | nil => intro _; rfl
  | cons p rest ih =>
    intro h
    obtain ⟨s, dbs⟩ := p
    rw [List.any_cons] at h
    simp only [Bool.or_eq_false_iff, decide_eq_false_iff_not] at h
    rw [Blacklist.getAt, if_neg h.1]
    exact ih (by simpa using h.2)

theorem getAt_append_absent (server : String) (dbs : List String) :
    ∀ bl : Blacklist, bl.any (fun p => p.1 = server) = false →
      Blacklist.getAt (bl ++ [(server, dbs)]) server = dbs := by
  intro bl
  induction bl with
  | nil => intro _; simp [Blacklist.getAt]
  | cons p rest ih =>
    intro h
    obtain ⟨s, l⟩ := p
    rw [List.any_cons] at h
    simp only [Bool.or_eq_false_iff, decide_eq_false_iff_not] at h
    rw [List.cons_append, Blacklist.getAt, if_neg h.1]
    exact ih (by simpa using h.2)

theorem getAt_setdefaultAt (bl : Blacklist) (server : String) :
    Blacklist.getAt (Blacklist.setdefaultAt bl server) server =
      Blacklist.getAt bl server := by
  unfold Blacklist.setdefaultAt
  split
  · rfl
  · rename_i h
    rw [getAt_append_absent server [] bl (Bool.eq_false_iff.mpr h),
      getAt_of_not_present server bl (Bool.eq_false_iff.mpr h)]

theorem any_setdefaultAt (bl : Blacklist) (server : String) :
    (Blacklist.setdefaultAt bl server).any (fun p => p.1 = server) = true := by
  unfold Blacklist.setdefaultAt
  split
  · rename_i h; exact h
  · simp

theorem getAt_setAt_present (server : String) (l : List String) :
    ∀ bl : Blacklist, bl.any (fun p => p.1 = server) = true →
      Blacklist.getAt (Blacklist.setAt bl server l) server = l := by
  intro bl
  induction bl with
  | nil => intro h; simp at h
  | cons p rest ih =>
    intro h
    obtain ⟨s, dbs⟩ := p
    rw [Blacklist.setAt, List.map_cons]
    dsimp only
    by_cases hs : s = server
    · rw [if_pos hs, Blacklist.getAt, if_pos rfl]
    · rw [if_neg hs, Blacklist.getAt, if_neg hs]
      rw [List.any_cons] at h
      simp only [Bool.or_eq_true, decide_eq_true_eq] at h
      rcases h with h | h
      · exact absurd h hs
      · exact ih (by simpa using h)

theorem any_setAt (bl : Blacklist) (server : String) (l : List String) :
    (Blacklist.setAt bl server l).any (fun p => p.1 = server) =
      bl.any (fun p => p.1 = server) := by
  unfold Blacklist.setAt
  induction bl with
  | nil => rfl
  | cons p rest ih =>
    obtain ⟨s, dbs⟩ := p
    by_cases hs : s = server
    · simp [hs]
    · simp only [List.map_cons, if_neg hs, List.any_cons, ih]

theorem getAt_bl1 (bl0 : Blacklist) (server : String) (more : List String) :
    Blacklist.getAt (Blacklist.extendAt
      (Blacklist.setdefaultAt bl0 server) server more) server =
      Blacklist.getAt bl0 server ++ more := by
  unfold Blacklist.extendAt
  rw [getAt_setAt_present server _ _ (any_setdefaultAt bl0 server),
    getAt_setdefaultAt]

theorem any_bl1 (bl0 : Blacklist) (server : String) (more : List String) :
    (Blacklist.extendAt (Blacklist.setdefaultAt bl0 server) server more).any
      (fun p => p.1 = server) = true := by
  unfold Blacklist.extendAt
  rw [any_setAt]
  exact any_setdefaultAt bl0 server

theorem selectDbs_excludes {d : String} (all : List String)
    (blServer : List String) (wl : Option (List String))
    (hd : d ∈ blServer) : d ∉ CouchDB1.selectDbs all blServer wl := by
  intro hmem
  rcases wl with _ | w
  · simp [CouchDB1.selectDbs, hd] at hmem
  · by_cases hw : w = []
    · subst hw
      simp [CouchDB1.selectDbs, hd] at hmem
    · simp [CouchDB1.selectDbs, hw, hd] at hmem

theorem dbLoop_state_mono (env : ServerEnv) (server : String)
    (tags : List String) :
    ∀ (dbs : List String) (st : LoopState),
      (∀ x ∈ st.bl, x ∈ (CouchDB1.dbLoop env server tags st dbs).1.bl) ∧
      (∀ w ∈ st.warnings,
        w ∈ (CouchDB1.dbLoop env server tags st dbs).1.warnings) ∧
      (∀ x ∈ (CouchDB1.dbLoop env server tags st dbs).1.fetched,
        x ∈ st.fetched ∨ x ∈ dbs) ∧
      (∀ p ∈ (CouchDB1.dbLoop env server tags st dbs).1.results,
        p.1 ∈ st.results.map Prod.fst ∨ p.1 ∈ dbs) := by
  intro dbs
  induction dbs with
  | nil =>
    intro st
    exact ⟨fun x hx => hx, fun w hw => hw, fun x hx => Or.inl hx,
      fun p hp => Or.inl (List.mem_map_of_mem _ hp)⟩
  | cons dbName rest ih =>
    intro st
    rw [CouchDB1.dbLoop]
    cases houtc : env.db dbName with
    | success body =>
      simp only [houtc, CouchDb.get]
      refine ⟨fun x hx => (ih _).1 x hx,
        fun w hw => (ih _).2.1 w hw, ?_, ?_⟩
      · intro x hx
        rcases (ih _).2.2.1 x hx with hx2 | hx2
        · rcases List.mem_append.mp hx2 with h | h
          · exact Or.inl h
          · simp at h
            subst h
            exact Or.inr (List.mem_cons_self _ _)
        · exact Or.inr (List.mem_cons_of_mem _ hx2)
      · intro p hp
        rcases (ih _).2.2.2 p hp with hp2 | hp2
        · rw [List.mem_map] at hp2
          obtain ⟨q, hq, hqe⟩ := hp2
          by_cases hb : body ≠ Json.null
          · rw [if_pos hb] at hq
            rcases mem_dictSet hq with hq2 | hq2
            · exact Or.inl (by rw [← hqe]; exact List.mem_map_of_mem _ hq2)
            · rw [← hqe, hq2]
              exact Or.inr (List.mem_cons_self _ _)
          · rw [if_neg hb] at hq
            exact Or.inl (by rw [← hqe]; exact List.mem_map_of_mem _ hq)
        · exact Or.inr (List.mem_cons_of_mem _ hp2)
    | timeout =>
      simp only [houtc, CouchDb.get]
      refine ⟨fun x hx => hx, fun w hw => hw, ?_,
        fun p hp => Or.inl (List.mem_map_of_mem _ hp)⟩
      intro x hx
      rcases List.mem_append.mp hx with h | h
      · exact Or.inl h
      · simp at h
        subst h
        exact Or.inr (List.mem_cons_self _ _)
    | transportError msg =>
      simp only [houtc, CouchDb.get]
      refine ⟨fun x hx => hx, fun w hw => hw, ?_,
        fun p hp => Or.inl (List.mem_map_of_mem _ hp)⟩
      intro x hx
      rcases List.mem_append.mp hx with h | h
      · exact Or.inl h
      · simp at h
        subst h
        exact Or.inr (List.mem_cons_self _ _)
    | httpError code =>
      simp only [houtc, CouchDb.get]
      by_cases hauth : code = 403 ∨ code = 401
      · rw [if_pos hauth]
        refine ⟨?_, ?_, ?_, ?_⟩
        · intro x hx
          exact (ih _).1 x (List.mem_append_left _ hx)
        · intro w hw
          exact (ih _).2.1 w (List.mem_append_left _ hw)
        · intro x hx
          rcases (ih _).2.2.1 x hx with hx2 | hx2
          · rcases List.mem_append.mp hx2 with h | h
            · exact Or.inl h
            · simp at h
              subst h
              exact Or.inr (List.mem_cons_self _ _)
          · exact Or.inr (List.mem_cons_of_mem _ hx2)
        · intro p hp
          rcases (ih _).2.2.2 p hp with hp2 | hp2
          · rw [List.mem_map] at hp2
            obtain ⟨q, hq, hqe⟩ := hp2
            obtain ⟨hq1, _⟩ := mem_dictDel hq
            rcases mem_dictSet hq1 with hq2 | hq2
            · exact Or.inl (by rw [← hqe]; exact List.mem_map_of_mem _ hq2)
            · rw [← hqe, hq2]
              exact Or.inr (List.mem_cons_self _ _)
          · exact Or.inr (List.mem_cons_of_mem _ hp2)
      · rw [if_neg hauth]
        cases hreg : st.reg with
        | none =>
          refine ⟨fun x hx => hx, fun w hw => hw, ?_, ?_⟩
          · intro x hx
            rcases List.mem_append.mp hx with h | h
            · exact Or.inl h
            · simp at h
              subst h
              exact Or.inr (List.mem_cons_self _ _)
          · intro p hp
            rcases mem_dictSet hp with hp2 | hp2
            · exact Or.inl (List.mem_map_of_mem _ hp2)
            · rw [hp2]
              exact Or.inr (List.mem_cons_self _ _)
        | some v =>
          refine ⟨fun x hx => (ih _).1 x hx,
            fun w hw => (ih _).2.1 w hw, ?_, ?_⟩
          · intro x hx
            rcases (ih _).2.2.1 x hx with hx2 | hx2
            · rcases List.mem_append.mp hx2 with h | h
              · exact Or.inl h
              · simp at h
                subst h
                exact Or.inr (List.mem_cons_self _ _)
            · exact Or.inr (List.mem_cons_of_mem _ hx2)
          · intro p hp
            rcases (ih _).2.2.2 p hp with hp2 | hp2
            · rw [List.mem_map] at hp2
              obtain ⟨q, hq, hqe⟩ := hp2
              have hq3 : q ∈ dictSet st.results dbName none ∨ q.1 = dbName := by
                by_cases hv : v ≠ Json.null
                · rw [if_pos hv] at hq
                  exact mem_dictSet hq
                · rw [if_neg hv] at hq
                  exact Or.inl hq
              rcases hq3 with hq3 | hq3
              · rcases mem_dictSet hq3 with hq4 | hq4
                · exact Or.inl (by rw [← hqe]; exact List.mem_map_of_mem _ hq4)
                · rw [← hqe, hq4]
                  exact Or.inr (List.mem_cons_self _ _)
              · rw [← hqe, hq3]
                exact Or.inr (List.mem_cons_self _ _)
            · exact Or.inr (List.mem_cons_of_mem _ hp2)

theorem dbLoop_401 (env : ServerEnv) (server : String) (tags : List String)
    (d : String) (code : Nat) (hout : env.db d = .httpError code)
    (hcode : code = 403 ∨ code = 401) :
    ∀ (dbs : List String) (st : LoopState),
      d ∈ (CouchDB1.dbLoop env server tags st dbs).1.fetched →
      d ∉ st.fetched →
      d ∈ (CouchDB1.dbLoop env server tags st dbs).1.bl ∧
      CouchDB1.unreadableWarning d ∈
        (CouchDB1.dbLoop env server tags st dbs).1.warnings := by
  intro dbs
  induction dbs with
  | nil =>
    intro st hf hnf
    exact absurd hf hnf
  | cons dbName rest ih =>
    intro st hf hnf
    by_cases hdd : dbName = d
    · subst hdd
      rw [CouchDB1.dbLoop, hout] at hf ⊢
      simp only [CouchDb.get] at hf ⊢
      rw [if_pos hcode] at hf ⊢
      constructor
      · exact (dbLoop_state_mono env server tags rest _).1 _
          (List.mem_append_right _ (List.mem_singleton_self _))
      · exact (dbLoop_state_mono env server tags rest _).2.1 _
          (List.mem_append_right _ (List.mem_singleton_self _))
    · rw [CouchDB1.dbLoop] at hf ⊢
      cases houtc : env.db dbName with
      | success body =>
        rw [houtc] at hf
        simp only [CouchDb.get] at hf ⊢
        refine ih _ hf ?_
        intro hmem
        rcases List.mem_append.mp hmem with h | h
        · exact hnf h
        · simp at h
          exact hdd h.symm
      | timeout =>
        rw [houtc] at hf
        simp only [CouchDb.get] at hf
        rcases List.mem_append.mp hf with h | h
        · exact absurd h hnf
        · simp at h
          exact absurd h.symm hdd
      | transportError msg =>
        rw [houtc] at hf
        simp only [CouchDb.get] at hf
        rcases List.mem_append.mp hf with h | h
        · exact absurd h hnf
        · simp at h
          exact absurd h.symm hdd
      | httpError c =>
        rw [houtc] at hf
        simp only [CouchDb.get] at hf ⊢
        by_cases hauth : c = 403 ∨ c = 401
        · rw [if_pos hauth] at hf ⊢
          refine ih _ hf ?_
          intro hmem
          rcases List.mem_append.mp hmem with h | h
          · exact hnf h
          · simp at h
            exact hdd h.symm
        · rw [if_neg hauth] at hf ⊢
          cases hreg : st.reg with
          | none =>
            rw [hreg] at hf
            rcases List.mem_append.mp hf with h | h
            · exact absurd h hnf
            · simp at h
              exact absurd h.symm hdd
          | some v =>
            rw [hreg] at hf
            refine ih _ hf ?_
            intro hmem
            rcases List.mem_append.mp hmem with h | h
            · exact hnf h
            · simp at h
              exact hdd h.symm

theorem dbLoop_results_avoid (env : ServerEnv) (server : String)
    (tags : List String) (d : String) (code : Nat)
    (hout : env.db d = .httpError code) (hcode : code = 403 ∨ code = 401) :
    ∀ (dbs : List String) (st : LoopState),
      (∀ p ∈ st.results, p.1 ≠ d) →
      ∀ p ∈ (CouchDB1.dbLoop env server tags st dbs).1.results, p.1 ≠ d := by
  intro dbs
  induction dbs with
  | nil =>
    intro st hinv p hp
    exact hinv p hp
  | cons dbName rest ih =>
    intro st hinv
    rw [CouchDB1.dbLoop]
    by_cases hdd : dbName = d
    · subst hdd
      rw [hout]
      simp only [CouchDb.get]
      rw [if_pos hcode]
      refine ih _ ?_
      intro p hp
      exact (mem_dictDel hp).2
    · cases houtc : env.db dbName with
      | success body =>
        simp only [houtc, CouchDb.get]
        refine ih _ ?_
        intro p hp
        by_cases hb : body ≠ Json.null
        · rw [if_pos hb] at hp
          rcases mem_dictSet hp with h | h
          · exact hinv p h
          · rw [h]
            exact hdd
        · rw [if_neg hb] at hp
          exact hinv p hp
      | timeout =>
        simp only [houtc, CouchDb.get]
        exact fun p hp => hinv p hp
      | transportError msg =>
        simp only [houtc, CouchDb.get]
        exact fun p hp => hinv p hp
      | httpError c =>
        simp only [houtc, CouchDb.get]
        by_cases hauth : c = 403 ∨ c = 401
        · rw [if_pos hauth]
          refine ih _ ?_
          intro p hp
          obtain ⟨hp1, _⟩ := mem_dictDel hp
          rcases mem_dictSet hp1 with h | h
          · exact hinv p h
          · rw [h]
            exact hdd
        · rw [if_neg hauth]
          cases hreg : st.reg with
          | none =>
            intro p hp
            rcases mem_dictSet hp with h | h
            · exact hinv p h
            · rw [h]
              exact hdd
          | some v =>
            refine ih _ ?_
            intro p hp
            have hp3 : p ∈ dictSet st.results dbName none ∨ p.1 = dbName := by
              by_cases hv : v ≠ Json.null
              · rw [if_pos hv] at hp
                exact mem_dictSet hp
              · rw [if_neg hv] at hp
                exact Or.inl hp
            rcases hp3 with h | h
            · rcases mem_dictSet h with h2 | h2
              · exact hinv p h2
              · rw [h2]
                exact hdd
            · rw [h]
              exact hdd

theorem get_data_after_blacklisted (env : ServerEnv) (server : String)
    (inst : Instance) (tags : List String) (bl0 : Blacklist) (d : String)
    (hd : d ∈ Blacklist.getAt bl0 server) :
    d ∉ (CouchDB1.get_data env server inst tags bl0).fetchedDbs ∧
    d ∈ Blacklist.getAt
      (CouchDB1.get_data env server inst tags bl0).blacklist server ∧
    (∀ data, (CouchDB1.get_data env server inst tags bl0).result = .ok data →
      ∀ p ∈ data.databases, p.1 ≠ d) := by
  have hd1 : d ∈ Blacklist.getAt (Blacklist.extendAt
      (Blacklist.setdefaultAt bl0 server) server inst.db_blacklist)
      server := by
    rw [getAt_bl1]
    exact List.mem_append_left _ hd
  rw [CouchDB1.get_data]
  cases hst : env.stats with
  | timeout => exact ⟨by simp [CouchDb.get], hd, by simp [CouchDb.get]⟩
  | httpError c => exact ⟨by simp [CouchDb.get], hd, by simp [CouchDb.get]⟩
  | transportError m =>
    exact ⟨by simp [CouchDb.get], hd, by simp [CouchDb.get]⟩
  | success overall =>
    simp only [CouchDb.get]
    by_cases hnull : overall = Json.null
    · rw [if_pos hnull]
      exact ⟨by simp, hd, by simp⟩
    · rw [if_neg hnull]
      cases hall : env.allDbs with
      | timeout => exact ⟨by simp [CouchDb.get], hd1, by simp [CouchDb.get]⟩
      | httpError c =>
        exact ⟨by simp [CouchDb.get], hd1, by simp [CouchDb.get]⟩
      | transportError m =>
        exact ⟨by simp [CouchDb.get], hd1, by simp [CouchDb.get]⟩
      | success dbsJson =>
        simp only [CouchDb.get]
        cases hsl : dbsJson.asStringList with
        | none => exact ⟨by simp, hd1, by simp⟩
        | some all_dbs =>
          dsimp only
          have hnotsel := selectDbs_excludes all_dbs
            (Blacklist.getAt (Blacklist.extendAt
              (Blacklist.setdefaultAt bl0 server) server inst.db_blacklist)
              server) inst.db_whitelist hd1
          by_cases hcap : CouchDB1.MAX_DB <
            (CouchDB1.selectDbs all_dbs (Blacklist.getAt
              (Blacklist.extendAt (Blacklist.setdefaultAt bl0 server)
                server inst.db_blacklist) server)
              inst.db_whitelist).length
          case pos =>
            rw [if_pos hcap]
            rcases hdl : CouchDB1.dbLoop env server tags
              ⟨[], Blacklist.getAt (Blacklist.extendAt
                (Blacklist.setdefaultAt bl0 server) server inst.db_blacklist)
                server, none,
                ["Too many databases, only the first 50 will be checked."],
                [], []⟩
              ((CouchDB1.selectDbs all_dbs (Blacklist.getAt
                (Blacklist.extendAt (Blacklist.setdefaultAt bl0 server)
                  server inst.db_blacklist) server)
                inst.db_whitelist).take CouchDB1.MAX_DB) with ⟨stF, err⟩
            have hmono := dbLoop_state_mono env server tags
              ((CouchDB1.selectDbs all_dbs (Blacklist.getAt
                (Blacklist.extendAt (Blacklist.setdefaultAt bl0 server)
                  server inst.db_blacklist) server)
                inst.db_whitelist).take CouchDB1.MAX_DB)
              ⟨[], Blacklist.getAt (Blacklist.extendAt
                (Blacklist.setdefaultAt bl0 server) server inst.db_blacklist)
                server, none,
                ["Too many databases, only the first 50 will be checked."],
                [], []⟩
            rw [hdl] at hmono
            have hfetch : d ∉ stF.fetched := by
              intro hmem
              rcases hmono.2.2.1 d hmem with h | h
              · simp at h
              · exact hnotsel (List.take_subset _ _ h)
            have hbl : d ∈ stF.bl := hmono.1 d hd1
            have hkeys : ∀ p ∈ stF.results, p.1 ≠ d := by
              intro p hp hpd
              rcases hmono.2.2.2 p hp with h | h
              · simp at h
              · rw [hpd] at h
                exact hnotsel (List.take_subset _ _ h)
            cases err with
            | some e =>
              refine ⟨hfetch, ?_, by simp⟩
              rw [getAt_setAt_present server stF.bl _
                (any_bl1 bl0 server inst.db_blacklist)]
              exact hbl
            | none =>
              refine ⟨hfetch, ?_, ?_⟩
              · rw [getAt_setAt_present server stF.bl _
                  (any_bl1 bl0 server inst.db_blacklist)]
                exact hbl
              · intro data hdata p hp
                injection hdata with h
                rw [← h] at hp
                exact hkeys p hp
          case neg =>
            rw [if_neg hcap]
            rcases hdl : CouchDB1.dbLoop env server tags
              ⟨[], Blacklist.getAt (Blacklist.extendAt
                (Blacklist.setdefaultAt bl0 server) server inst.db_blacklist)
                server, none, [], [], []⟩
              (CouchDB1.selectDbs all_dbs (Blacklist.getAt
                (Blacklist.extendAt (Blacklist.setdefaultAt bl0 server)
                  server inst.db_blacklist) server)
                inst.db_whitelist) with ⟨stF, err⟩
            have hmono := dbLoop_state_mono env server tags
              (CouchDB1.selectDbs all_dbs (Blacklist.getAt
                (Blacklist.extendAt (Blacklist.setdefaultAt bl0 server)
                  server inst.db_blacklist) server)
                inst.db_whitelist)
              ⟨[], Blacklist.getAt (Blacklist.extendAt
                (Blacklist.setdefaultAt bl0 server) server inst.db_blacklist)
                server, none, [], [], []⟩
            rw [hdl] at hmono
            have hfetch : d ∉ stF.fetched := by
              intro hmem
              rcases hmono.2.2.1 d hmem with h | h
              · simp at h
              · exact hnotsel h
            have hbl : d ∈ stF.bl := hmono.1 d hd1
            have hkeys : ∀ p ∈ stF.results, p.1 ≠ d := by
              intro p hp hpd
              rcases hmono.2.2.2 p hp with h | h
              · simp at h
              · rw [hpd] at h
                exact hnotsel h
            cases err with
            | some e =>
              refine ⟨hfetch, ?_, by simp⟩
              rw [getAt_setAt_present server stF.bl _
                (any_bl1 bl0 server inst.db_blacklist)]
              exact hbl
            | none =>
              refine ⟨hfetch, ?_, ?_⟩
              · rw [getAt_setAt_present server stF.bl _
                  (any_bl1 bl0 server inst.db_blacklist)]
                exact hbl
              · intro data hdata p hp
                injection hdata with h
                rw [← h] at hp
                exact hkeys p hp

theorem get_data_401 (env : ServerEnv) (server : String) (inst : Instance)
    (tags : List String) (bl0 : Blacklist) (d : String) (code : Nat)
    (hout : env.db d = .httpError code) (hcode : code = 403 ∨ code = 401) :
    d ∈ (CouchDB1.get_data env server inst tags bl0).fetchedDbs →
    d ∈ Blacklist.getAt
      (CouchDB1.get_data env server inst tags bl0).blacklist server ∧
    CouchDB1.unreadableWarning d ∈
      (CouchDB1.get_data env server inst tags bl0).warnings ∧
    (∀ data, (CouchDB1.get_data env server inst tags bl0).result = .ok data →
      ∀ p ∈ data.databases, p.1 ≠ d) := by
  rw [CouchDB1.get_data]
  cases hst : env.stats with
  | timeout => intro hf; simp [CouchDb.get] at hf
  | httpError c => intro hf; simp [CouchDb.get] at hf
  | transportError m => intro hf; simp [CouchDb.get] at hf
  | success overall =>
    simp only [CouchDb.get]
    by_cases hnull : overall = Json.null
    · rw [if_pos hnull]
      intro hf
      simp at hf
    · rw [if_neg hnull]
      cases hall : env.allDbs with
      | timeout => intro hf; simp [CouchDb.get] at hf
      | httpError c => intro hf; simp [CouchDb.get] at hf
      | transportError m => intro hf; simp [CouchDb.get] at hf
      | success dbsJson =>
        simp only [CouchDb.get]
        cases hsl : dbsJson.asStringList with
        | none => intro hf; simp at hf
        | some all_dbs =>
          dsimp only
          by_cases hcap : CouchDB1.MAX_DB <
            (CouchDB1.selectDbs all_dbs (Blacklist.getAt
              (Blacklist.extendAt (Blacklist.setdefaultAt bl0 server)
                server inst.db_blacklist) server)
              inst.db_whitelist).length
          case pos =>
            rw [if_pos hcap]
            rcases hdl : CouchDB1.dbLoop env server tags
              ⟨[], Blacklist.getAt (Blacklist.extendAt
                (Blacklist.setdefaultAt bl0 server) server inst.db_blacklist)
                server, none,
                ["Too many databases, only the first 50 will be checked."],
                [], []⟩
              ((CouchDB1.selectDbs all_dbs (Blacklist.getAt
                (Blacklist.extendAt (Blacklist.setdefaultAt bl0 server)
                  server inst.db_blacklist) server)
                inst.db_whitelist).take CouchDB1.MAX_DB) with ⟨stF, err⟩
            have h401 := dbLoop_401 env server tags d code hout hcode
              ((CouchDB1.selectDbs all_dbs (Blacklist.getAt
                (Blacklist.extendAt (Blacklist.setdefaultAt bl0 server)
                  server inst.db_blacklist) server)
                inst.db_whitelist).take CouchDB1.MAX_DB)
              ⟨[], Blacklist.getAt (Blacklist.extendAt
                (Blacklist.setdefaultAt bl0 server) server inst.db_blacklist)
                server, none,
                ["Too many databases, only the first 50 will be checked."],
                [], []⟩
            have havoid := dbLoop_results_avoid env server tags d code hout
              hcode
              ((CouchDB1.selectDbs all_dbs (Blacklist.getAt
                (Blacklist.extendAt (Blacklist.setdefaultAt bl0 server)
                  server inst.db_blacklist) server)
                inst.db_whitelist).take CouchDB1.MAX_DB)
              ⟨[], Blacklist.getAt (Blacklist.extendAt
                (Blacklist.setdefaultAt bl0 server) server inst.db_blacklist)
                server, none,
                ["Too many databases, only the first 50 will be checked."],
                [], []⟩ (by simp)
            rw [hdl] at h401 havoid
            cases err with
            | some e =>
              intro hf
              obtain ⟨hbl, hwarn⟩ := h401 hf (by simp)
              refine ⟨?_, hwarn, by simp⟩
              rw [getAt_setAt_present server stF.bl _
                (any_bl1 bl0 server inst.db_blacklist)]
              exact hbl
            | none =>
              intro hf
              obtain ⟨hbl, hwarn⟩ := h401 hf (by simp)
              refine ⟨?_, hwarn, ?_⟩
              · rw [getAt_setAt_present server stF.bl _
                  (any_bl1 bl0 server inst.db_blacklist)]
                exact hbl
              · intro data hdata p hp
                injection hdata with h
                rw [← h] at hp
                exact havoid p hp
          case neg =>
            rw [if_neg hcap]
            rcases hdl : CouchDB1.dbLoop env server tags
              ⟨[], Blacklist.getAt (Blacklist.extendAt
                (Blacklist.setdefaultAt bl0 server) server inst.db_blacklist)
                server, none, [], [], []⟩
              (CouchDB1.selectDbs all_dbs (Blacklist.getAt
                (Blacklist.extendAt (Blacklist.setdefaultAt bl0 server)
                  server inst.db_blacklist) server)
                inst.db_whitelist) with ⟨stF, err⟩
            have h401 := dbLoop_401 env server tags d code hout hcode
              (CouchDB1.selectDbs all_dbs (Blacklist.getAt
                (Blacklist.extendAt (Blacklist.setdefaultAt bl0 server)
                  server inst.db_blacklist) server)
                inst.db_whitelist)
              ⟨[], Blacklist.getAt (Blacklist.extendAt
                (Blacklist.setdefaultAt bl0 server) server inst.db_blacklist)
                server, none, [], [], []⟩
            have havoid := dbLoop_results_avoid env server tags d code hout
              hcode
              (CouchDB1.selectDbs all_dbs (Blacklist.getAt
                (Blacklist.extendAt (Blacklist.setdefaultAt bl0 server)
                  server inst.db_blacklist) server)
                inst.db_whitelist)
              ⟨[], Blacklist.getAt (Blacklist.extendAt
                (Blacklist.setdefaultAt bl0 server) server inst.db_blacklist)
                server, none, [], [], []⟩ (by simp)
            rw [hdl] at h401 havoid
            cases err with
            | some e =>
              intro hf
              obtain ⟨hbl, hwarn⟩ := h401 hf (by simp)
              refine ⟨?_, hwarn, by simp⟩
              rw [getAt_setAt_present server stF.bl _
                (any_bl1 bl0 server inst.db_blacklist)]
              exact hbl
            | none =>
              intro hf
              obtain ⟨hbl, hwarn⟩ := h401 hf (by simp)
              refine ⟨?_, hwarn, ?_⟩
              · rw [getAt_setAt_present server stF.bl _
                  (any_bl1 bl0 server inst.db_blacklist)]
                exact hbl
              · intro data hdata p hp
                injection hdata with h
                rw [← h] at hp
                exact havoid p hp

theorem check_fields_eq (env : ServerEnv) (inst : Instance) (server : String)
    (bl0 : Blacklist) (hs : inst.server = some server) :
    (CouchDB1.check env inst bl0).fetchedDbs =
      (CouchDB1.get_data env server inst
        ["instance:" ++ server] bl0).fetchedDbs ∧
    (CouchDB1.check env inst bl0).blacklist =
      (CouchDB1.get_data env server inst
        ["instance:" ++ server] bl0).blacklist ∧
    (CouchDB1.check env inst bl0).warnings =
      (CouchDB1.get_data env server inst
        ["instance:" ++ server] bl0).warnings := by
  rw [CouchDB1.check, hs]
  dsimp only
  rcases (CouchDB1.get_data env server inst
    ["instance:" ++ server] bl0).result with e | data
  · exact ⟨rfl, rfl, rfl⟩
  · rcases CouchDB1.create_metric data ["instance:" ++ server] with ⟨gs, err⟩
    exact ⟨rfl, rfl, rfl⟩

theorem check_gauges_avoid (env : ServerEnv) (inst : Instance)
    (server d : String) (bl0 : Blacklist) (hs : inst.server = some server)
    (hres : ∀ data,
      (CouchDB1.get_data env server inst
        ["instance:" ++ server] bl0).result = .ok data →
      ∀ p ∈ data.databases, p.1 ≠ d) :
    ∀ g ∈ (CouchDB1.check env inst bl0).gauges, ("db:" ++ d) ∉ g.tags := by
  rw [CouchDB1.check, hs]
  dsimp only
  rcases hresx : (CouchDB1.get_data env server inst
    ["instance:" ++ server] bl0).result with e | data
  · intro g hg
    simp at hg
  · intro g hg htag
    have hg2 : g ∈ (CouchDB1.create_metric data ["instance:" ++ server]).1 :=
      hg
    rcases create_metric_tags data ["instance:" ++ server] g hg2 with
      ⟨ht, _⟩ | ⟨db, hdb, ht, _, _⟩
    · rw [ht] at htag
      simp at htag
      exact db_tag_ne_instance_tag d server htag
    · rw [ht] at htag
      rcases List.mem_append.mp htag with h | h
      · simp at h
        exact db_tag_ne_instance_tag d server h
      · simp at h
        rw [← db_tag_inj h] at hdb
        obtain ⟨p, hp, hpe⟩ := List.mem_map.mp hdb
        exact hres data hresx p hp hpe

theorem check_after_blacklisted (env : ServerEnv) (inst : Instance)
    (server d : String) (bl0 : Blacklist) (hs : inst.server = some server)
    (hd : d ∈ Blacklist.getAt bl0 server) :
    d ∉ (CouchDB1.check env inst bl0).fetchedDbs ∧
    d ∈ Blacklist.getAt (CouchDB1.check env inst bl0).blacklist server ∧
    (∀ g ∈ (CouchDB1.check env inst bl0).gauges, ("db:" ++ d) ∉ g.tags) := by
  obtain ⟨hf, hbl, hres⟩ := get_data_after_blacklisted env server inst
    ["instance:" ++ server] bl0 d hd
  obtain ⟨he1, he2, he3⟩ := check_fields_eq env inst server bl0 hs
  refine ⟨?_, ?_, check_gauges_avoid env inst server d bl0 hs hres⟩
  · rw [he1]
    exact hf
  · rw [he2]
    exact hbl

theorem checkMany_after_blacklisted (server d : String) :
    ∀ (later : List (ServerEnv × Instance)) (bl : Blacklist),
      d ∈ Blacklist.getAt bl server →
      (∀ q ∈ later, q.2.server = some server) →
      ∀ out ∈ (CouchDb.checkMany (some (.v1 bl)) later).1,
        d ∉ out.fetchedDbs ∧ ∀ g ∈ out.gauges, ("db:" ++ d) ∉ g.tags := by
  intro later
  induction later with
  | nil =>
    intro bl hd hsrv out hout
    rw [CouchDb.checkMany] at hout
    simp at hout
  | cons q rest ih =>
    obtain ⟨env, inst⟩ := q
    intro bl hd hsrv out hout
    have hs : inst.server = some server := hsrv (env, inst) (by simp)
    have hstep : CouchDb.check env inst (some (Checker.v1 bl)) =
        CouchDb.runChecker env inst (Checker.v1 bl) false [] := by
      rw [CouchDb.check, hs]
    simp only [CouchDb.checkMany] at hout
    rw [hstep] at hout
    rcases hrec : CouchDb.checkMany
      (CouchDb.runChecker env inst (Checker.v1 bl) false []).checker rest
      with ⟨outs, cF⟩
    rw [hrec] at hout
    simp only [List.mem_cons] at hout
    obtain ⟨hf, hbl2, hg⟩ := check_after_blacklisted env inst server d bl
      hs hd
    rcases hout with h | h
    · rw [h]
      exact ⟨hf, hg⟩
    · have hrec2 : CouchDb.checkMany
          (some (Checker.v1 (CouchDB1.check env inst bl).blacklist)) rest =
          (outs, cF) := hrec
      refine ih ((CouchDB1.check env inst bl).blacklist) hbl2
        (fun q hq => hsrv q (List.mem_cons_of_mem _ hq)) out ?_
      rw [hrec2]
      exact h

/-- Claim C3: when a database answers 401 or 403 during the v1 per-database
loop, it is added to the server's blacklist, the unreadable warning is
emitted, the database is omitted from that run's results (its provisional
null entry is deleted, so no entry under its name survives) and no gauge of
that run carries its `db:` tag; and every later run of the same checker
object against this server neither fetches it again nor emits any gauge
tagged with it. -/
theorem forbidden_db_blacklisting (env : ServerEnv) (inst : Instance)
    (server d : String) (bl0 : Blacklist) (code : Nat)
    (hs : inst.server = some server)
    (hout : env.db d = .httpError code)
    (hcode : code = 403 ∨ code = 401)
    (hfetched : d ∈ (CouchDB1.check env inst bl0).fetchedDbs) :
    d ∈ Blacklist.getAt (CouchDB1.check env inst bl0).blacklist server ∧
    CouchDB1.unreadableWarning d ∈ (CouchDB1.check env inst bl0).warnings ∧
    (∀ data,
      (CouchDB1.get_data env server inst ["instance:" ++ server] bl0).result
        = .ok data → ∀ p ∈ data.databases, p.1 ≠ d) ∧
    (∀ g ∈ (CouchDB1.check env inst bl0).gauges, ("db:" ++ d) ∉ g.tags) ∧
    (∀ later : List (ServerEnv × Instance),
      (∀ q ∈ later, q.2.server = some server) →
      ∀ out ∈ (CouchDb.checkMany
        (some (.v1 (CouchDB1.check env inst bl0).blacklist)) later).1,
        d ∉ out.fetchedDbs ∧ ∀ g ∈ out.gauges, ("db:" ++ d) ∉ g.tags) := by
  obtain ⟨he1, he2, he3⟩ := check_fields_eq env inst server bl0 hs
  have hf2 : d ∈ (CouchDB1.get_data env server inst
      ["instance:" ++ server] bl0).fetchedDbs := by
    rw [← he1]
    exact hfetched
  obtain ⟨hbl, hwarn, hres⟩ := get_data_401 env server inst
    ["instance:" ++ server] bl0 d code hout hcode hf2
  have hbl2 : d ∈ Blacklist.getAt
      (CouchDB1.check env inst bl0).blacklist server := by
    rw [he2]
    exact hbl
  refine ⟨hbl2, ?_, hres,
    check_gauges_avoid env inst server d bl0 hs hres, ?_⟩
  · rw [he3]
    exact hwarn
  · intro later hlater out hout2
    exact checkMany_after_blacklisted server d later
      ((CouchDB1.check env inst bl0).blacklist) hbl2 hlater out hout2

theorem forbidden_db_blacklisting_witness :
    "b" ∈ Blacklist.getAt
      (CouchDB1.check env401 ⟨some "s", none, none, none, none, none, []⟩
        []).blacklist "s" ∧
    CouchDB1.unreadableWarning "b" ∈
      (CouchDB1.check env401 ⟨some "s", none, none, none, none, none, []⟩
        []).warnings := by
  obtain ⟨h1, h2, h3⟩ := forbidden_db_blacklisting env401
    ⟨some "s", none, none, none, none, none, []⟩ "s" "b" [] 401 rfl rfl
    (Or.inr rfl) (by decide)
  exact ⟨h1, h2⟩

end Couch
